import Mathlib

/-!
Verification of the per-client audio mixing and routing engine of the
BackgroundMusic virtual audio driver.

The definitions below are a shallow embedding of
`BGMDriver/DeviceClients/BGM_Client.cpp` and
`BGMDriver/DeviceClients/BGM_Clients.cpp`.

Modelling conventions:
* `Float32`/`Float64` sample and gain values are modelled as exact rationals
  (`ℚ`); the engine only moves these values around (no rounding-sensitive
  arithmetic is involved in the claims).
* `UInt32` client ids are modelled as `Nat`, `pid_t` as `Int`,
  `UInt64` counters as `Nat` together with the explicit `UINT64_MAX`
  guards that the source performs, and `% 2 ^ 64` where an unguarded
  increment could wrap.
* C++ exceptions (`ThrowIf`) are modelled as an `Except`-style outcome that
  is returned *together with* the state at the moment of the throw, because
  the C++ object keeps all mutations performed before the exception.
* `CACFString` bundle ids are modelled as `Option String` (`none` = invalid /
  absent string).
-/

/-- `UINT64_MAX`, the guard value used by the IO reference counters. -/
def UINT64MAX : Nat := 2 ^ 64 - 1

/-- Errors thrown by the engine (`BGM_InvalidClientException`,
`kAudioHardwareIllegalOperationError`, `BGM_InvalidClientPIDException`,
`BGM_InvalidClientRelativeVolumeException`,
`BGM_InvalidClientPanPositionException`). -/
inductive BGMErr where
  | invalidClient
  | illegalOperation
  | invalidPID
  | invalidRelativeVolume
  | invalidPanPosition
  deriving DecidableEq, Repr

/-! ### Constants

`kRoutingBufferFrames` and `kRoutingBufferChannels` are declared in
`BGM_Client.h`, which is not part of the sources; the spec fixes the channel
count to 2 (interleaved stereo) and gives 8192 as the ring size.
Modelled from the spec: ring capacity 8192 frames, 2 channels. -/

def kRoutingBufferFrames : Nat := 8192

def kRoutingBufferChannels : Nat := 2

/-- Modelled from the spec: numeric range constants from `BGM_Types.h`
(missing from the sources).  Relative volume raw range, pan raw range with
0 = center, EQ raw range in tenths of dB, and the EQ "no value" sentinel. -/
def kAppRelativeVolumeMinRawValue : Int := 0

def kAppRelativeVolumeMaxRawValue : Int := 100

def kAppPanLeftRawValue : Int := -100

def kAppPanRightRawValue : Int := 100

def kAppPanCenterRawValue : Int := 0

def kAppEQGainMinRawValue : Int := -120

def kAppEQGainMaxRawValue : Int := 120

def kAppEQGainNoValue : ℚ := -9999

/-! ### Routing ring buffer (`BGM_Client.cpp`) -/

/-- The lock-free SPSC ring buffer owned by a client record.
`storage` models the `Float32[kRoutingBufferFrames * kRoutingBufferChannels]`
array; `writePos` models the `UInt64` atomic `mRoutingBufferWritePos`
(always `< 2 ^ 64`). -/
structure RoutingRing where
  storage : Nat → ℚ
  writePos : Nat

/-- A client record (`BGM_Client`).  The C++ pair
`mRoutingBufferAllocated` / `mRoutingBuffer` is collapsed into an `Option`:
the two fields are mutated only by `AllocateRoutingBuffer` /
`DeallocateRoutingBuffer`, which keep them in lockstep. -/
structure BGM_Client where
  mClientID : Nat
  mProcessID : Int
  mBundleID : Option String := none
  mIsNativeEndian : Bool := true
  mDoingIOFlag : Bool := false
  mIsMusicPlayer : Bool := false
  mRelativeVolume : ℚ := 1
  mPanPosition : Int := 0
  mEQLowGain : ℚ := 0
  mEQMidGain : ℚ := 0
  mEQHighGain : ℚ := 0
  mRoutingBufferSampleTime : ℚ := 0
  mRoutingBuffer : Option RoutingRing := none

/-- `BGM_Client::AllocateRoutingBuffer`: idempotent; zero-fills the storage
and resets `write_pos` to 0. -/
def allocateRoutingBuffer (c : BGM_Client) : BGM_Client :=
  match c.mRoutingBuffer with
  | some _ => c
  | none => { c with mRoutingBuffer := some ⟨fun _ => 0, 0⟩ }

/-- `BGM_Client::DeallocateRoutingBuffer`: idempotent; releases the storage
and resets `write_pos`. -/
def deallocateRoutingBuffer (c : BGM_Client) : BGM_Client :=
  { c with mRoutingBuffer := none }

/-- The write loop of `BGM_Client::StoreToRoutingBuffer`: writes each
interleaved stereo frame at `(write_pos % kRoutingBufferFrames) * 2` and
advances `write_pos` by one per frame.  The input buffer is modelled as a
list of (left, right) frames. -/
def ringWrite (storage : Nat → ℚ) (writePos : Nat) :
    List (ℚ × ℚ) → (Nat → ℚ) × Nat
  | [] => (storage, writePos)
  | (l, r) :: rest =>
      let off := (writePos % kRoutingBufferFrames) * kRoutingBufferChannels
      let storage' : Nat → ℚ :=
        fun i => if i = off + 1 then r else if i = off then l else storage i
      ringWrite storage' (writePos + 1) rest

/-- `BGM_Client::StoreToRoutingBuffer`.  Returns the client unchanged when
the buffer is not allocated.  The per-frame `UInt64` increments of
`write_pos` are wrapped once at the end (`kRoutingBufferFrames` divides
`2 ^ 64`, so the in-loop `% kRoutingBufferFrames` indices agree). -/
def storeToRoutingBuffer (c : BGM_Client) (inBuffer : List (ℚ × ℚ))
    (inSampleTime : ℚ) : BGM_Client :=
  match c.mRoutingBuffer with
  | none => c
  | some ring =>
      let res := ringWrite ring.storage ring.writePos inBuffer
      { c with
          mRoutingBuffer := some ⟨res.1, res.2 % 2 ^ 64⟩
          mRoutingBufferSampleTime := inSampleTime + inBuffer.length }

/-- `BGM_Client::FetchFromRoutingBuffer`.  `inChannel` is a `SInt32`;
`inSampleOffset` is a `UInt64`. -/
def fetchFromRoutingBuffer (c : BGM_Client) (inChannel : Int)
    (inSampleOffset : Nat) : ℚ :=
  match c.mRoutingBuffer with
  | none => 0
  | some ring =>
      let readPos := ring.writePos
      if readPos < inSampleOffset then 0
      else
        let targetPos := readPos - inSampleOffset
        let bufferOffset := (targetPos % kRoutingBufferFrames) * kRoutingBufferChannels
        if inChannel < 0 ∨ (kRoutingBufferChannels : Int) ≤ inChannel then 0
        else ring.storage (bufferOffset + inChannel.toNat)

/-! ### Client map

`BGM_ClientMap` is declared and used by the sources but its implementation
file is not under the sources.  Modelled from the spec: a collection of
client records "keyed primary by `client_id`, secondary by `process_id`
(many-to-one possible)", with `GetClientNonRT`/`GetClientRT` returning a
record copy, `GetClientByPIDRT` returning "any record matching" (we take the
first), and the NRT mutators acting on the records in place.  We represent
the map as the list of its records; well-formed maps have pairwise distinct
`client_id`s. -/

abbrev ClientMap := List BGM_Client

/-- Modelled from the spec: `GetClientNonRT(id) → record copy` (also
`GetClientRT` / `GetClientPtrRT`, which differ only in threading). -/
def getClientNonRT (m : ClientMap) (inClientID : Nat) : Option BGM_Client :=
  m.find? (fun c => c.mClientID = inClientID)

/-- Modelled from the spec: `GetClientByPIDRT(pid) → any record matching`;
we return the first record with the given process id. -/
def getClientByPIDRT (m : ClientMap) (inPID : Int) : Option BGM_Client :=
  m.find? (fun c => c.mProcessID = inPID)

/-- Modelled from the spec: `BGM_ClientMap::StartIONonRT` marks the record
with the given client id as doing IO. -/
def mapStartIONonRT (m : ClientMap) (inClientID : Nat) : ClientMap :=
  m.map (fun c =>
    if c.mClientID = inClientID then { c with mDoingIOFlag := true } else c)

/-- Modelled from the spec: `BGM_ClientMap::StopIONonRT` marks the record
with the given client id as not doing IO. -/
def mapStopIONonRT (m : ClientMap) (inClientID : Nat) : ClientMap :=
  m.map (fun c =>
    if c.mClientID = inClientID then { c with mDoingIOFlag := false } else c)

/-- Modelled from the spec: `AllocateRoutingBufferForPID` allocates the
routing buffer on the record(s) of the given process id. -/
def allocateRoutingBufferForPID (m : ClientMap) (inPID : Int) : ClientMap :=
  m.map (fun c => if c.mProcessID = inPID then allocateRoutingBuffer c else c)

/-- Modelled from the spec: `DeallocateRoutingBufferForPID`. -/
def deallocateRoutingBufferForPID (m : ClientMap) (inPID : Int) : ClientMap :=
  m.map (fun c => if c.mProcessID = inPID then deallocateRoutingBuffer c else c)

/-- Modelled from the spec: `UpdateMusicPlayerFlags(pid)` "scans the current
generation and sets each record's `is_music_player` accordingly"; the match
predicate is the one `BGM_Clients::AddClient` uses (`pid ≠ 0` and the record's
process id equals the designator). -/
def updateMusicPlayerFlagsPID (m : ClientMap) (inPID : Int) : ClientMap :=
  m.map (fun c =>
    { c with mIsMusicPlayer := decide (inPID ≠ 0 ∧ c.mProcessID = inPID) })

/-- Modelled from the spec: `UpdateMusicPlayerFlags(bundle_id)`, bundle-id
variant of the designator match. -/
def updateMusicPlayerFlagsBundle (m : ClientMap) (inBundleID : String) : ClientMap :=
  m.map (fun c =>
    { c with mIsMusicPlayer :=
        decide (inBundleID ≠ "" ∧ c.mBundleID = some inBundleID) })

/-! ### Routing graph and facade state (`BGM_Clients.cpp`) -/

/-- `BGM_AudioRoute`: one directed edge of the routing graph. -/
structure BGM_AudioRoute where
  mSourcePID : Int
  mDestPID : Int
  mGain : ℚ
  mEnabled : Bool
  deriving DecidableEq, Repr

/-- The state owned by `BGM_Clients`: the client map, the IO reference
counters, the cached control-app client id (`mBGMAppClientID`, a `SInt32`
that is `-1` when no control app is attached), the music-player designators
and the routing graph. -/
structure ClientsState where
  clients : ClientMap
  mStartCount : Nat := 0
  mStartCountExcludingBGMApp : Nat := 0
  mBGMAppClientID : Int := -1
  mMusicPlayerProcessIDProperty : Int := 0
  mMusicPlayerBundleIDProperty : String := ""
  mRoutes : List BGM_AudioRoute := []

/-- Modelled from the spec: `BGM_Clients::IsBGMApp(client_id)` compares the
client id against the cached control-app client id (the inline definition
lives in the missing header). -/
def isBGMApp (s : ClientsState) (inClientID : Nat) : Bool :=
  (inClientID : Int) = s.mBGMAppClientID

/-- The pair of notification flags decided inside one Start/Stop call and
handed to `SendIORunningNotifications`. -/
structure IONotifs where
  isRunning : Bool
  runningElsewhere : Bool
  deriving DecidableEq, Repr

/-- No notification flagged. -/
def noNotifs : IONotifs := ⟨false, false⟩

/-- `BGM_Clients::StartIONonRT`.  The returned triple is (outcome,
notification flags, state after the call); on a throw the state holds every
mutation performed before the throw, and no notification is dispatched. -/
def startIONonRT (s : ClientsState) (inClientID : Nat) :
    Except BGMErr Bool × IONotifs × ClientsState :=
  match getClientNonRT s.clients inClientID with
  | none => (.error .invalidClient, noNotifs, s)
  | some theClient =>
      if theClient.mDoingIOFlag then
        (.ok false, noNotifs, s)
      else if s.mStartCount = UINT64MAX then
        (.error .illegalOperation, noNotifs, s)
      else
        let clients' := mapStartIONonRT s.clients inClientID
        let count' := s.mStartCount + 1
        if ¬ isBGMApp s inClientID then
          if s.mStartCountExcludingBGMApp = UINT64MAX then
            (.error .illegalOperation, noNotifs,
              { s with clients := clients', mStartCount := count' })
          else
            let exc' := s.mStartCountExcludingBGMApp + 1
            (.ok (count' = 1), ⟨count' = 1, exc' = 1⟩,
              { s with clients := clients', mStartCount := count',
                       mStartCountExcludingBGMApp := exc' })
        else
          (.ok (count' = 1), ⟨count' = 1, false⟩,
            { s with clients := clients', mStartCount := count' })

/-- `BGM_Clients::StopIONonRT`.  Note that the source mutates the client map
*before* checking the counters for underflow, so the underflow throws leave
the map mutated. -/
def stopIONonRT (s : ClientsState) (inClientID : Nat) :
    Except BGMErr Bool × IONotifs × ClientsState :=
  match getClientNonRT s.clients inClientID with
  | none => (.error .invalidClient, noNotifs, s)
  | some theClient =>
      if theClient.mDoingIOFlag then
        let clients' := mapStopIONonRT s.clients inClientID
        if s.mStartCount = 0 then
          (.error .illegalOperation, noNotifs, { s with clients := clients' })
        else
          let count' := s.mStartCount - 1
          if ¬ isBGMApp s inClientID then
            if s.mStartCountExcludingBGMApp = 0 then
              (.error .illegalOperation, noNotifs,
                { s with clients := clients', mStartCount := count' })
            else
              let exc' := s.mStartCountExcludingBGMApp - 1
              (.ok (count' = 0), ⟨count' = 0, exc' = 0⟩,
                { s with clients := clients', mStartCount := count',
                         mStartCountExcludingBGMApp := exc' })
          else
            (.ok (count' = 0), ⟨count' = 0, false⟩,
              { s with clients := clients', mStartCount := count' })
      else
        (.ok false, noNotifs, s)

/-- One IO operation of a Start/Stop interleaving. -/
inductive IOOp where
  | start : Nat → IOOp
  | stop : Nat → IOOp
  deriving DecidableEq, Repr

/-- Run a sequence of Start/Stop calls, keeping the state each call leaves
behind (also on a throw, as the C++ object does). -/
def runIOOps (s : ClientsState) : List IOOp → ClientsState
  | [] => s
  | op :: rest =>
      let s' := match op with
        | .start id => (startIONonRT s id).2.2
        | .stop id => (stopIONonRT s id).2.2
      runIOOps s' rest

/-! ### Claim C10: behaviour with an unallocated routing buffer -/

/-- C10: when a client's routing buffer is not allocated, `StoreToRoutingBuffer`
returns without writing and leaves the whole client record unchanged, and
`FetchFromRoutingBuffer` returns 0.0 for every channel and sample offset. -/
theorem claim_C10 (c : BGM_Client) (h : c.mRoutingBuffer = none) :
    (∀ (inBuffer : List (ℚ × ℚ)) (inSampleTime : ℚ),
      storeToRoutingBuffer c inBuffer inSampleTime = c) ∧
    (∀ (inChannel : Int) (inSampleOffset : Nat),
      fetchFromRoutingBuffer c inChannel inSampleOffset = 0) := by
  constructor
  · intro inBuffer inSampleTime
    simp [storeToRoutingBuffer, h]
  · intro inChannel inSampleOffset
    simp [fetchFromRoutingBuffer, h]

/-- A concrete client record whose routing buffer was never allocated. -/
def wClientNoBuffer : BGM_Client := { mClientID := 7, mProcessID := 100 }

/-- Witness for C10 at a concrete client and inputs. -/
theorem claim_C10_witness :
    storeToRoutingBuffer wClientNoBuffer [(1, 2), (3, 4)] 5 = wClientNoBuffer ∧
    fetchFromRoutingBuffer wClientNoBuffer 1 3 = 0 :=
  ⟨(claim_C10 wClientNoBuffer rfl).1 [(1, 2), (3, 4)] 5,
   (claim_C10 wClientNoBuffer rfl).2 1 3⟩

/-! ### Claim C5: ring buffer store/fetch correctness -/

/-- A sequence of `StoreToRoutingBuffer` calls; each call carries its frame
list and its `inSampleTime` argument. -/
def storeCalls (c : BGM_Client) : List (List (ℚ × ℚ) × ℚ) → BGM_Client
  | [] => c
  | call :: rest => storeCalls (storeToRoutingBuffer c call.1 call.2) rest

/-- All frames written by a sequence of store calls, in write order. -/
def flatFrames : List (List (ℚ × ℚ) × ℚ) → List (ℚ × ℚ)
  | [] => []
  | call :: rest => call.1 ++ flatFrames rest

lemma ringWrite_writePos (frames : List (ℚ × ℚ)) :
    ∀ (storage : Nat → ℚ) (w : Nat),
      (ringWrite storage w frames).2 = w + frames.length := by
  induction frames with
  | nil => intro storage w; rfl
  | cons f rest ih =>
      intro storage w
      obtain ⟨l, r⟩ := f
      simp only [ringWrite, ih, List.length_cons]
      omega

lemma ringWrite_get_old (frames : List (ℚ × ℚ)) :
    ∀ (storage : Nat → ℚ) (w i : Nat),
      w + frames.length ≤ kRoutingBufferFrames → i < w * 2 →
      (ringWrite storage w frames).1 i = storage i := by
  induction frames with
  | nil => intro storage w i _ _; rfl
  | cons f rest ih =>
      intro storage w i hle hi
      obtain ⟨l, r⟩ := f
      have hwR : w < kRoutingBufferFrames := by
        simp only [List.length_cons] at hle; omega
      have hmod : w % kRoutingBufferFrames = w := Nat.mod_eq_of_lt hwR
      simp only [ringWrite]
      rw [ih _ (w + 1) i (by simp only [List.length_cons] at hle; omega) (by omega)]
      simp only [hmod, kRoutingBufferChannels]
      rw [if_neg (by omega), if_neg (by omega)]

lemma ringWrite_get_new (frames : List (ℚ × ℚ)) :
    ∀ (storage : Nat → ℚ) (w p : Nat),
      w + frames.length ≤ kRoutingBufferFrames →
      w ≤ p → p < w + frames.length →
      (ringWrite storage w frames).1 (p * 2) = (frames.getD (p - w) (0, 0)).1 ∧
      (ringWrite storage w frames).1 (p * 2 + 1) = (frames.getD (p - w) (0, 0)).2 := by
  induction frames with
  | nil => intro storage w p _ h1 h2; simp only [List.length_nil] at h2; omega
  | cons f rest ih =>
      intro storage w p hle hwp hp
      obtain ⟨l, r⟩ := f
      have hwR : w < kRoutingBufferFrames := by
        simp only [List.length_cons] at hle; omega
      have hmod : w % kRoutingBufferFrames = w := Nat.mod_eq_of_lt hwR
      simp only [ringWrite]
      rcases Nat.eq_or_lt_of_le hwp with heq | hlt
      · subst heq
        rw [ringWrite_get_old rest _ (w + 1) (w * 2)
              (by simp only [List.length_cons] at hle; omega) (by omega),
            ringWrite_get_old rest _ (w + 1) (w * 2 + 1)
              (by simp only [List.length_cons] at hle; omega) (by omega)]
        simp only [hmod, kRoutingBufferChannels, Nat.sub_self, List.getD_cons_zero]
        constructor <;> simp
      · have h1 : w + 1 ≤ p := hlt
        have h2 : p < (w + 1) + rest.length := by
          simp only [List.length_cons] at hp; omega
        have h3 : (w + 1) + rest.length ≤ kRoutingBufferFrames := by
          simp only [List.length_cons] at hle; omega
        have hsub : p - w = (p - (w + 1)) + 1 := by omega
        rw [hsub]
        simpa only [List.getD_cons_succ] using ih _ (w + 1) p h3 h1 h2

/-- Contents invariant: the client's buffer is allocated, its write position
equals the number of frames written since allocation, and the storage holds
those frames at their positions (valid while at most `kRoutingBufferFrames`
frames have been written, so no slot has been overwritten). -/
def freshContents (c : BGM_Client) (written : List (ℚ × ℚ)) : Prop :=
  ∃ ring, c.mRoutingBuffer = some ring ∧ ring.writePos = written.length ∧
    ∀ p, p < written.length →
      ring.storage (p * 2) = (written.getD p (0, 0)).1 ∧
      ring.storage (p * 2 + 1) = (written.getD p (0, 0)).2

lemma store_fresh (c : BGM_Client) (written buf : List (ℚ × ℚ)) (t : ℚ)
    (hP : freshContents c written)
    (hle : written.length + buf.length ≤ kRoutingBufferFrames) :
    freshContents (storeToRoutingBuffer c buf t) (written ++ buf) := by
  obtain ⟨ring, hbuf, hw, hst⟩ := hP
  have hmod : (ringWrite ring.storage ring.writePos buf).2 % 2 ^ 64 =
      written.length + buf.length := by
    rw [ringWrite_writePos, hw]
    exact Nat.mod_eq_of_lt (lt_of_le_of_lt hle (by norm_num [kRoutingBufferFrames]))
  refine ⟨⟨(ringWrite ring.storage ring.writePos buf).1,
           (ringWrite ring.storage ring.writePos buf).2 % 2 ^ 64⟩, ?_, ?_, ?_⟩
  · simp [storeToRoutingBuffer, hbuf]
  · simpa using hmod
  · intro p hp
    dsimp only
    simp only [List.length_append] at hp
    by_cases hcase : p < written.length
    · rw [hw] at *
      constructor
      · rw [ringWrite_get_old buf _ written.length (p * 2) hle (by omega),
            List.getD_append _ _ _ _ hcase]
        exact (hst p hcase).1
      · rw [ringWrite_get_old buf _ written.length (p * 2 + 1) hle (by omega),
            List.getD_append _ _ _ _ hcase]
        exact (hst p hcase).2
    · have hge : written.length ≤ p := by omega
      rw [hw] at *
      have := ringWrite_get_new buf ring.storage written.length p hle hge (by omega)
      constructor
      · rw [this.1, List.getD_append_right _ _ _ _ hge]
      · rw [this.2, List.getD_append_right _ _ _ _ hge]

lemma storeCalls_fresh (calls : List (List (ℚ × ℚ) × ℚ)) :
    ∀ (c : BGM_Client) (written : List (ℚ × ℚ)),
      freshContents c written →
      written.length + (flatFrames calls).length ≤ kRoutingBufferFrames →
      freshContents (storeCalls c calls) (written ++ flatFrames calls) := by
  induction calls with
  | nil => intro c written hP _; simpa [storeCalls, flatFrames] using hP
  | cons call rest ih =>
      intro c written hP hle
      simp only [flatFrames, List.length_append] at hle
      have h1 : written.length + call.1.length ≤ kRoutingBufferFrames := by omega
      have step := store_fresh c written call.1 call.2 hP h1
      have h2 : (written ++ call.1).length + (flatFrames rest).length ≤
          kRoutingBufferFrames := by
        simp only [List.length_append]; omega
      have := ih (storeToRoutingBuffer c call.1 call.2) (written ++ call.1) step h2
      simpa only [storeCalls, flatFrames, List.append_assoc] using this

/-- C5: after any sequence of store calls writing `k ≤ kRoutingBufferFrames`
frames in total to a freshly allocated routing buffer, fetching channel 0/1
at `sample_offset ∈ [1, k]` returns the stereo frame written at frame
position `write_pos − sample_offset`; and fetch returns 0.0 whenever
`write_pos < sample_offset` or the channel is outside the two stereo
channels. -/
theorem claim_C5 :
    (∀ (c0 : BGM_Client) (ring0 : RoutingRing) (calls : List (List (ℚ × ℚ) × ℚ)),
      c0.mRoutingBuffer = some ring0 → ring0.writePos = 0 →
      (flatFrames calls).length ≤ kRoutingBufferFrames →
      ∀ off, 1 ≤ off → off ≤ (flatFrames calls).length →
        (fetchFromRoutingBuffer (storeCalls c0 calls) 0 off,
         fetchFromRoutingBuffer (storeCalls c0 calls) 1 off) =
          (flatFrames calls).getD ((flatFrames calls).length - off) (0, 0)) ∧
    (∀ (c : BGM_Client) (ring : RoutingRing) (inChannel : Int) (off : Nat),
      c.mRoutingBuffer = some ring → ring.writePos < off →
      fetchFromRoutingBuffer c inChannel off = 0) ∧
    (∀ (c : BGM_Client) (inChannel : Int) (off : Nat),
      inChannel < 0 ∨ 2 ≤ inChannel →
      fetchFromRoutingBuffer c inChannel off = 0) := by
  refine ⟨?_, ?_, ?_⟩
  · intro c0 ring0 calls hbuf hw0 hk off hoff1 hoff2
    have hP0 : freshContents c0 [] := ⟨ring0, hbuf, by simpa using hw0, by simp⟩
    have hP := storeCalls_fresh calls c0 [] hP0 (by simpa using hk)
    simp only [List.nil_append] at hP
    obtain ⟨ring, hb, hw, hst⟩ := hP
    have hlt : ¬ ring.writePos < off := by omega
    have htarget : ring.writePos - off < (flatFrames calls).length := by omega
    have hmod : (ring.writePos - off) % kRoutingBufferFrames = ring.writePos - off :=
      Nat.mod_eq_of_lt (by omega)
    have hget := hst (ring.writePos - off) (by omega)
    simp only [fetchFromRoutingBuffer, hb, if_neg hlt, hmod, kRoutingBufferChannels]
    rw [if_neg (by omega), if_neg (by omega)]
    have h0 : (0 : Int).toNat = 0 := rfl
    have h1 : (1 : Int).toNat = 1 := rfl
    rw [h0, h1, hw] at *
    have := hget
    rw [Prod.ext_iff]
    constructor
    · simpa using this.1
    · simpa using this.2
  · intro c ring inChannel off hb hlt
    simp [fetchFromRoutingBuffer, hb, hlt]
  · intro c inChannel off hch
    simp only [fetchFromRoutingBuffer]
    cases hc : c.mRoutingBuffer with
    | none => rfl
    | some ring =>
        by_cases hlt : ring.writePos < off
        · simp [hlt]
        · have : inChannel < 0 ∨ (kRoutingBufferChannels : Int) ≤ inChannel := by
            simp only [kRoutingBufferChannels]
            exact_mod_cast hch
          simp [hlt, this]

/-- A concrete client record with a freshly allocated routing buffer. -/
def wClientFresh : BGM_Client :=
  { mClientID := 1, mProcessID := 200, mRoutingBuffer := some ⟨fun _ => 0, 0⟩ }

/-- Witness for C5: two store calls writing three frames in total; fetching
at offset 2 returns the second written frame, offset 4 underflows, and
channel 2 is out of range. -/
theorem claim_C5_witness :
    ((fetchFromRoutingBuffer (storeCalls wClientFresh [([(1, 2), (3, 4)], 0), ([(5, 6)], 0)]) 0 2,
      fetchFromRoutingBuffer (storeCalls wClientFresh [([(1, 2), (3, 4)], 0), ([(5, 6)], 0)]) 1 2) =
        ((3 : ℚ), (4 : ℚ))) ∧
    fetchFromRoutingBuffer wClientFresh 0 1 = 0 ∧
    fetchFromRoutingBuffer wClientFresh 2 1 = 0 := by
  refine ⟨?_, ?_, ?_⟩
  · have h := claim_C5.1 wClientFresh ⟨fun _ => 0, 0⟩
      [([(1, 2), (3, 4)], 0), ([(5, 6)], 0)] rfl rfl
      (by norm_num [flatFrames, kRoutingBufferFrames]) 2 (by norm_num)
      (by norm_num [flatFrames])
    simpa [flatFrames] using h
  · exact claim_C5.2.1 wClientFresh ⟨fun _ => 0, 0⟩ 0 1 rfl (by norm_num)
  · exact claim_C5.2.2 wClientFresh 2 1 (Or.inr (by norm_num))

/-! ### Claims C1 and C3: IO reference counting -/

lemma getClientNonRT_id (m : ClientMap) (id : Nat) (c : BGM_Client)
    (h : getClientNonRT m id = some c) : c.mClientID = id := by
  have := List.find?_some h
  simpa using this

lemma getClientNonRT_mem (m : ClientMap) (id : Nat) (c : BGM_Client)
    (h : getClientNonRT m id = some c) : c ∈ m :=
  List.mem_of_find?_eq_some h

lemma getClientNonRT_mapStartIONonRT (m : ClientMap) (id : Nat) :
    getClientNonRT (mapStartIONonRT m id) id =
      (getClientNonRT m id).map (fun c => { c with mDoingIOFlag := true }) := by
  induction m with
  | nil => rfl
  | cons c rest ih =>
      simp only [mapStartIONonRT, getClientNonRT, List.map_cons, List.find?_cons] at *
      by_cases hc : c.mClientID = id
      · simp [hc]
      · simp [hc, ih]

/-- C1: `StartIONonRT` fails with `InvalidClient` for a client id that was
never added; returns `false` with no notifications and no state change when
the client is already doing IO; and otherwise marks the record as doing IO,
increments `start_count` (and `start_count_excluding_control_app` exactly
when the client is not the control app) and returns true iff the
pre-increment `start_count` was 0.  The hypothesis excludes the
unreachable saturated-counter states (the counters count distinct clients,
of which there are fewer than `UINT64_MAX`). -/
theorem claim_C1 (s : ClientsState) (inClientID : Nat)
    (hwf : s.mStartCount < UINT64MAX ∧ s.mStartCountExcludingBGMApp < UINT64MAX) :
    (getClientNonRT s.clients inClientID = none →
      startIONonRT s inClientID = (.error .invalidClient, noNotifs, s)) ∧
    (∀ c, getClientNonRT s.clients inClientID = some c → c.mDoingIOFlag = true →
      startIONonRT s inClientID = (.ok false, noNotifs, s)) ∧
    (∀ c, getClientNonRT s.clients inClientID = some c → c.mDoingIOFlag = false →
      (startIONonRT s inClientID).1 = .ok (decide (s.mStartCount = 0)) ∧
      (∃ c', getClientNonRT ((startIONonRT s inClientID).2.2).clients inClientID =
          some c' ∧ c'.mDoingIOFlag = true) ∧
      ((startIONonRT s inClientID).2.2).mStartCount = s.mStartCount + 1 ∧
      ((startIONonRT s inClientID).2.2).mStartCountExcludingBGMApp =
        (if isBGMApp s inClientID then s.mStartCountExcludingBGMApp
         else s.mStartCountExcludingBGMApp + 1) ∧
      ((startIONonRT s inClientID).2.1).isRunning = decide (s.mStartCount = 0)) := by
  refine ⟨?_, ?_, ?_⟩
  · intro hnone
    simp [startIONonRT, hnone]
  · intro c hfind hdo
    simp [startIONonRT, hfind, hdo]
  · intro c hfind hdo
    have hguard : ¬ s.mStartCount = UINT64MAX := by omega
    have hmarked : ∃ c', getClientNonRT (mapStartIONonRT s.clients inClientID) inClientID =
        some c' ∧ c'.mDoingIOFlag = true := by
      refine ⟨{ c with mDoingIOFlag := true }, ?_, rfl⟩
      rw [getClientNonRT_mapStartIONonRT, hfind]
      rfl
    have hdec : decide (s.mStartCount + 1 = 1) = decide (s.mStartCount = 0) :=
      decide_eq_decide.mpr (by omega)
    by_cases hbgm : isBGMApp s inClientID
    · have heq : startIONonRT s inClientID =
          (.ok (decide (s.mStartCount + 1 = 1)),
            ⟨decide (s.mStartCount + 1 = 1), false⟩,
            { s with clients := mapStartIONonRT s.clients inClientID,
                     mStartCount := s.mStartCount + 1 }) := by
        simp [startIONonRT, hfind, hdo, hguard, hbgm]
      rw [heq]
      exact ⟨by rw [hdec], hmarked, rfl, by simp [hbgm], by rw [hdec]⟩
    · have hguard2 : ¬ s.mStartCountExcludingBGMApp = UINT64MAX := by omega
      have heq : startIONonRT s inClientID =
          (.ok (decide (s.mStartCount + 1 = 1)),
            ⟨decide (s.mStartCount + 1 = 1),
              decide (s.mStartCountExcludingBGMApp + 1 = 1)⟩,
            { s with clients := mapStartIONonRT s.clients inClientID,
                     mStartCount := s.mStartCount + 1,
                     mStartCountExcludingBGMApp :=
                       s.mStartCountExcludingBGMApp + 1 }) := by
        simp [startIONonRT, hfind, hdo, hguard, hbgm, hguard2]
      rw [heq]
      exact ⟨by rw [hdec], hmarked, rfl, by simp [hbgm], by rw [hdec]⟩

/-- A concrete engine state with one ordinary client that is not doing IO. -/
def wStateIdle : ClientsState :=
  { clients := [{ mClientID := 1, mProcessID := 100 }] }

/-- Witness for C1: starting client 1 from idle starts the device; starting
the never-added client 2 is an invalid-client error. -/
theorem claim_C1_witness :
    (startIONonRT wStateIdle 1).1 = .ok true ∧
    (startIONonRT wStateIdle 2).1 = .error .invalidClient := by
  constructor
  · have h := (claim_C1 wStateIdle 1 (by constructor <;> decide)).2.2
      { mClientID := 1, mProcessID := 100 } rfl rfl
    simpa using h.1
  · have h := (claim_C1 wStateIdle 2 (by constructor <;> decide)).1 rfl
    rw [h]

/-- C3: `StopIONonRT` on an added client that is doing IO decrements
`start_count` (and `start_count_excluding_control_app` for a non-control-app
client), fails with `IllegalOperation` when either decrement would underflow
a zero counter, flags the running-elsewhere notification exactly when
`start_count_excluding_control_app` reaches 0, and returns true iff
`start_count` reaches 0; on a client not doing IO it returns false and
changes nothing. -/
theorem claim_C3 (s : ClientsState) (inClientID : Nat) (c : BGM_Client)
    (hfind : getClientNonRT s.clients inClientID = some c) :
    (c.mDoingIOFlag = false →
      stopIONonRT s inClientID = (.ok false, noNotifs, s)) ∧
    (c.mDoingIOFlag = true → s.mStartCount = 0 →
      (stopIONonRT s inClientID).1 = .error .illegalOperation) ∧
    (c.mDoingIOFlag = true → s.mStartCount ≠ 0 → ¬ isBGMApp s inClientID →
      s.mStartCountExcludingBGMApp = 0 →
      (stopIONonRT s inClientID).1 = .error .illegalOperation) ∧
    (c.mDoingIOFlag = true → s.mStartCount ≠ 0 →
      (isBGMApp s inClientID ∨ s.mStartCountExcludingBGMApp ≠ 0) →
      (stopIONonRT s inClientID).1 = .ok (decide (s.mStartCount - 1 = 0)) ∧
      ((stopIONonRT s inClientID).2.2).mStartCount = s.mStartCount - 1 ∧
      ((stopIONonRT s inClientID).2.2).mStartCountExcludingBGMApp =
        (if isBGMApp s inClientID then s.mStartCountExcludingBGMApp
         else s.mStartCountExcludingBGMApp - 1) ∧
      ((stopIONonRT s inClientID).2.1).runningElsewhere =
        (if isBGMApp s inClientID then false
         else decide (s.mStartCountExcludingBGMApp - 1 = 0)) ∧
      ((stopIONonRT s inClientID).2.1).isRunning =
        decide (s.mStartCount - 1 = 0)) := by
  refine ⟨?_, ?_, ?_, ?_⟩
  · intro hdo
    simp [stopIONonRT, hfind, hdo]
  · intro hdo hzero
    simp [stopIONonRT, hfind, hdo, hzero]
  · intro hdo hnz hbgm hezero
    simp [stopIONonRT, hfind, hdo, hnz, hbgm, hezero]
  · intro hdo hnz hcase
    by_cases hbgm : isBGMApp s inClientID
    · have heq : stopIONonRT s inClientID =
          (.ok (decide (s.mStartCount - 1 = 0)),
            ⟨decide (s.mStartCount - 1 = 0), false⟩,
            { s with clients := mapStopIONonRT s.clients inClientID,
                     mStartCount := s.mStartCount - 1 }) := by
        simp [stopIONonRT, hfind, hdo, hnz, hbgm]
      rw [heq]
      exact ⟨rfl, rfl, by simp [hbgm], by simp [hbgm], rfl⟩
    · have henz : s.mStartCountExcludingBGMApp ≠ 0 := by
        rcases hcase with h | h
        · exact absurd h hbgm
        · exact h
      have heq : stopIONonRT s inClientID =
          (.ok (decide (s.mStartCount - 1 = 0)),
            ⟨decide (s.mStartCount - 1 = 0),
              decide (s.mStartCountExcludingBGMApp - 1 = 0)⟩,
            { s with clients := mapStopIONonRT s.clients inClientID,
                     mStartCount := s.mStartCount - 1,
                     mStartCountExcludingBGMApp :=
                       s.mStartCountExcludingBGMApp - 1 }) := by
        simp [stopIONonRT, hfind, hdo, hnz, hbgm, henz]
      rw [heq]
      exact ⟨rfl, rfl, by simp [hbgm], by simp [hbgm], rfl⟩

/-- A concrete engine state with one ordinary client that is doing IO and
both counters at 1. -/
def wStateRunning : ClientsState :=
  { clients := [{ mClientID := 1, mProcessID := 100, mDoingIOFlag := true }],
    mStartCount := 1, mStartCountExcludingBGMApp := 1 }

/-- Witness for C3: stopping the only running client stops the device,
flags both notifications and zeroes both counters. -/
theorem claim_C3_witness :
    (stopIONonRT wStateRunning 1).1 = .ok true ∧
    ((stopIONonRT wStateRunning 1).2.2).mStartCount = 0 ∧
    ((stopIONonRT wStateRunning 1).2.2).mStartCountExcludingBGMApp = 0 ∧
    ((stopIONonRT wStateRunning 1).2.1).runningElsewhere = true := by
  have h := (claim_C3 wStateRunning 1
      { mClientID := 1, mProcessID := 100, mDoingIOFlag := true } rfl).2.2.2
    rfl (by decide) (Or.inr (by decide))
  have hbgm : ¬ isBGMApp wStateRunning 1 := by decide
  refine ⟨by simpa using h.1, by simpa using h.2.1, ?_, ?_⟩
  · have := h.2.2.1
    rw [if_neg hbgm] at this
    simpa using this
  · have := h.2.2.2.1
    rw [if_neg hbgm] at this
    simpa using this

/-! ### Claim C2: the counter invariant -/

/-- Predicate: the client is doing IO. -/
def doingPred (c : BGM_Client) : Bool := c.mDoingIOFlag

/-- Predicate: the client is doing IO and is not the control app. -/
def doingNonBGMPred (bgm : Int) (c : BGM_Client) : Bool :=
  c.mDoingIOFlag && decide ((c.mClientID : Int) ≠ bgm)

/-- Predicate: the client is doing IO and is the control app. -/
def doingBGMPred (bgm : Int) (c : BGM_Client) : Bool :=
  c.mDoingIOFlag && decide ((c.mClientID : Int) = bgm)

/-- Number of clients currently doing IO. -/
def countDoing (m : ClientMap) : Nat := (m.filter doingPred).length

/-- Number of clients currently doing IO other than the control app. -/
def countDoingNonBGM (m : ClientMap) (bgmID : Int) : Nat :=
  (m.filter (doingNonBGMPred bgmID)).length

/-- Well-formedness tying the two counters to the client map: distinct
client ids, fewer clients than `UINT64_MAX`, and each counter equal to the
number of clients it counts. -/
def WFCounts (s : ClientsState) : Prop :=
  (s.clients.map (fun c => c.mClientID)).Nodup ∧
  s.clients.length < UINT64MAX ∧
  s.mStartCount = countDoing s.clients ∧
  s.mStartCountExcludingBGMApp = countDoingNonBGM s.clients s.mBGMAppClientID

lemma update_eq_of_not_mem (m : ClientMap) (id : Nat) (f : BGM_Client → BGM_Client)
    (h : ∀ x ∈ m, x.mClientID ≠ id) :
    m.map (fun x => if x.mClientID = id then f x else x) = m := by
  induction m with
  | nil => rfl
  | cons c rest ih =>
      simp only [List.map_cons, List.cons.injEq]
      constructor
      · rw [if_neg (h c (by simp))]
      · exact ih (fun x hx => h x (by simp [hx]))

lemma filter_length_update (m : ClientMap) (id : Nat)
    (f : BGM_Client → BGM_Client) (p : BGM_Client → Bool) :
    ∀ (c : BGM_Client),
      (m.map (fun x => x.mClientID)).Nodup →
      m.find? (fun x => x.mClientID = id) = some c →
      (((m.map (fun x => if x.mClientID = id then f x else x)).filter p).length : Int) =
        ((m.filter p).length : Int) +
          (if p (f c) then 1 else 0) - (if p c then 1 else 0) := by
  induction m with
  | nil => intro c _ hfind; simp [List.find?] at hfind
  | cons a rest ih =>
      intro c hnd hfind
      simp only [List.map_cons, List.nodup_cons] at hnd
      by_cases ha : a.mClientID = id
      · have hca : c = a := by
          simp [ha] at hfind
          exact hfind.symm
        subst hca
        have hrest : ∀ x ∈ rest, x.mClientID ≠ id := by
          intro x hx hxid
          exact hnd.1 (ha ▸ hxid ▸ List.mem_map_of_mem (fun c => c.mClientID) hx)
        rw [List.map_cons, if_pos ha, update_eq_of_not_mem rest id f hrest]
        by_cases hpf : p (f c) <;> by_cases hpc : p c <;>
          simp [List.filter_cons, hpf, hpc] <;> omega
      · have hfind2 : rest.find? (fun x => x.mClientID = id) = some c := by
          simpa [ha] using hfind
        have := ih c hnd.2 hfind2
        rw [List.map_cons, if_neg ha]
        by_cases hpa : p a <;> simp [List.filter_cons, hpa] <;> omega

lemma map_update_ids (m : ClientMap) (id : Nat) (f : BGM_Client → BGM_Client)
    (hf : ∀ x, (f x).mClientID = x.mClientID) :
    (m.map (fun x => if x.mClientID = id then f x else x)).map
        (fun x => x.mClientID) = m.map (fun x => x.mClientID) := by
  induction m with
  | nil => rfl
  | cons a rest ih =>
      simp only [List.map_cons, List.cons.injEq]
      refine ⟨?_, ih⟩
      by_cases ha : a.mClientID = id
      · rw [if_pos ha, hf]
      · rw [if_neg ha]

lemma mem_filter_length_pos (m : ClientMap) (p : BGM_Client → Bool)
    (c : BGM_Client) (hc : c ∈ m) (hp : p c = true) :
    0 < (m.filter p).length :=
  List.length_pos.mpr (List.ne_nil_of_mem (List.mem_filter.mpr ⟨hc, hp⟩))

lemma countDoing_le (m : ClientMap) : countDoing m ≤ m.length :=
  List.length_filter_le _ m

lemma countDoingNonBGM_le (m : ClientMap) (bgmID : Int) :
    countDoingNonBGM m bgmID ≤ m.length :=
  List.length_filter_le _ m

lemma countDoing_mapStartIONonRT (m : ClientMap) (id : Nat) (c : BGM_Client)
    (hnd : (m.map (fun x => x.mClientID)).Nodup)
    (hfind : getClientNonRT m id = some c) (hdo : c.mDoingIOFlag = false) :
    countDoing (mapStartIONonRT m id) = countDoing m + 1 := by
  have h := filter_length_update m id (fun x => { x with mDoingIOFlag := true })
      doingPred c hnd hfind
  rw [show doingPred { c with mDoingIOFlag := true } = true from rfl,
      show doingPred c = c.mDoingIOFlag from rfl, hdo] at h
  simp only [if_true, Bool.false_eq_true, if_false] at h
  unfold countDoing mapStartIONonRT
  omega

lemma countDoingNonBGM_mapStartIONonRT (m : ClientMap) (id : Nat) (bgm : Int)
    (c : BGM_Client) (hnd : (m.map (fun x => x.mClientID)).Nodup)
    (hfind : getClientNonRT m id = some c) (hdo : c.mDoingIOFlag = false) :
    countDoingNonBGM (mapStartIONonRT m id) bgm =
      countDoingNonBGM m bgm + (if (id : Int) = bgm then 0 else 1) := by
  have h := filter_length_update m id (fun x => { x with mDoingIOFlag := true })
      (doingNonBGMPred bgm) c hnd hfind
  have hcid : c.mClientID = id := getClientNonRT_id m id c hfind
  have hpc : doingNonBGMPred bgm c = false := by simp [doingNonBGMPred, hdo]
  have hpf : doingNonBGMPred bgm { c with mDoingIOFlag := true } =
      decide ((id : Int) ≠ bgm) := by
    simp [doingNonBGMPred, hcid]
  rw [hpc, hpf] at h
  unfold countDoingNonBGM mapStartIONonRT
  by_cases hb : (id : Int) = bgm
  · rw [if_pos hb]
    simp only [hb] at h
    simp at h
    omega
  · rw [if_neg hb]
    simp [hb] at h
    omega

lemma countDoing_mapStopIONonRT (m : ClientMap) (id : Nat) (c : BGM_Client)
    (hnd : (m.map (fun x => x.mClientID)).Nodup)
    (hfind : getClientNonRT m id = some c) (hdo : c.mDoingIOFlag = true) :
    countDoing (mapStopIONonRT m id) + 1 = countDoing m := by
  have h := filter_length_update m id (fun x => { x with mDoingIOFlag := false })
      doingPred c hnd hfind
  rw [show doingPred { c with mDoingIOFlag := false } = false from rfl,
      show doingPred c = c.mDoingIOFlag from rfl, hdo] at h
  simp only [if_true, Bool.false_eq_true, if_false] at h
  unfold countDoing mapStopIONonRT
  omega

lemma countDoingNonBGM_mapStopIONonRT (m : ClientMap) (id : Nat) (bgm : Int)
    (c : BGM_Client) (hnd : (m.map (fun x => x.mClientID)).Nodup)
    (hfind : getClientNonRT m id = some c) (hdo : c.mDoingIOFlag = true) :
    countDoingNonBGM (mapStopIONonRT m id) bgm + (if (id : Int) = bgm then 0 else 1) =
      countDoingNonBGM m bgm := by
  have h := filter_length_update m id (fun x => { x with mDoingIOFlag := false })
      (doingNonBGMPred bgm) c hnd hfind
  have hcid : c.mClientID = id := getClientNonRT_id m id c hfind
  have hpc : doingNonBGMPred bgm c = decide ((id : Int) ≠ bgm) := by
    simp [doingNonBGMPred, hdo, hcid]
  have hpf : doingNonBGMPred bgm { c with mDoingIOFlag := false } = false := by
    simp [doingNonBGMPred]
  rw [hpc, hpf] at h
  unfold countDoingNonBGM mapStopIONonRT
  by_cases hb : (id : Int) = bgm
  · rw [if_pos hb]
    simp only [hb] at h
    simp at h
    omega
  · rw [if_neg hb]
    simp [hb] at h
    omega

lemma countDoing_eq_zero (m : ClientMap) (h : ∀ c ∈ m, c.mDoingIOFlag = false) :
    countDoing m = 0 := by
  unfold countDoing
  rw [List.filter_eq_nil_iff.mpr (by intro c hc; simp [doingPred, h c hc])]
  rfl

lemma countDoingNonBGM_eq_zero (m : ClientMap) (bgm : Int)
    (h : ∀ c ∈ m, c.mDoingIOFlag = false) :
    countDoingNonBGM m bgm = 0 := by
  unfold countDoingNonBGM
  rw [List.filter_eq_nil_iff.mpr (by intro c hc; simp [doingNonBGMPred, h c hc])]
  rfl

lemma countDoing_split (m : ClientMap) (bgm : Int) :
    countDoing m = countDoingNonBGM m bgm +
      (m.filter (doingBGMPred bgm)).length := by
  induction m with
  | nil => rfl
  | cons a rest ih =>
      unfold countDoing countDoingNonBGM at *
      simp only [List.filter_cons]
      by_cases h1 : a.mDoingIOFlag <;> by_cases h2 : (a.mClientID : Int) = bgm <;>
        simp [doingPred, doingNonBGMPred, doingBGMPred, h1, h2] <;> omega

lemma bgmdoing_le_one (m : ClientMap) (bgm : Int) :
    (m.map (fun x => x.mClientID)).Nodup →
    (m.filter (doingBGMPred bgm)).length ≤ 1 := by
  induction m with
  | nil => intro _; simp
  | cons a rest ih =>
      intro hnd
      simp only [List.map_cons, List.nodup_cons] at hnd
      simp only [List.filter_cons]
      by_cases hp : doingBGMPred bgm a
      · have hempty : rest.filter (doingBGMPred bgm) = [] := by
          rw [List.filter_eq_nil_iff]
          intro x hx hpx
          have hxb : (x.mClientID : Int) = bgm := by
            have := hpx
            simp [doingBGMPred] at this
            exact this.2
          have hab : (a.mClientID : Int) = bgm := by
            have := hp
            simp [doingBGMPred] at this
            exact this.2
          have hxa : x.mClientID = a.mClientID := by
            have : (x.mClientID : Int) = (a.mClientID : Int) := by rw [hxb, hab]
            exact_mod_cast this
          exact absurd (hxa ▸ List.mem_map_of_mem (fun x => x.mClientID) hx) hnd.1
        simp [hp, hempty]
      · simp only [Bool.not_eq_true] at hp
        simp only [hp, Bool.false_eq_true, if_false]
        exact ih hnd.2

lemma WFCounts_inv (s : ClientsState) (h : WFCounts s) :
    s.mStartCountExcludingBGMApp = s.mStartCount ∨
      s.mStartCountExcludingBGMApp + 1 = s.mStartCount := by
  obtain ⟨hnd, _, hc, he⟩ := h
  have hsplit := countDoing_split s.clients s.mBGMAppClientID
  have hle := bgmdoing_le_one s.clients s.mBGMAppClientID hnd
  omega

lemma mapStartIONonRT_ids (m : ClientMap) (id : Nat) :
    (mapStartIONonRT m id).map (fun x => x.mClientID) = m.map (fun x => x.mClientID) :=
  map_update_ids m id _ (fun _ => rfl)

lemma mapStopIONonRT_ids (m : ClientMap) (id : Nat) :
    (mapStopIONonRT m id).map (fun x => x.mClientID) = m.map (fun x => x.mClientID) :=
  map_update_ids m id _ (fun _ => rfl)

lemma startIO_WF (s : ClientsState) (id : Nat) (h : WFCounts s) :
    WFCounts (startIONonRT s id).2.2 := by
  obtain ⟨hnd, hlen, hcount, hexc⟩ := h
  cases hfind : getClientNonRT s.clients id with
  | none =>
      have heq : (startIONonRT s id).2.2 = s := by simp [startIONonRT, hfind]
      rw [heq]; exact ⟨hnd, hlen, hcount, hexc⟩
  | some c =>
      by_cases hdo : c.mDoingIOFlag
      · have heq : (startIONonRT s id).2.2 = s := by simp [startIONonRT, hfind, hdo]
        rw [heq]; exact ⟨hnd, hlen, hcount, hexc⟩
      · have hdo' : c.mDoingIOFlag = false := by simpa using hdo
        have hguard : ¬ s.mStartCount = UINT64MAX := by
          have h1 := countDoing_le s.clients
          omega
        have hcd := countDoing_mapStartIONonRT s.clients id c hnd hfind hdo'
        have hce := countDoingNonBGM_mapStartIONonRT s.clients id s.mBGMAppClientID c
          hnd hfind hdo'
        by_cases hbgm : isBGMApp s id
        · have hb : (id : Int) = s.mBGMAppClientID := by
            simpa [isBGMApp] using hbgm
          have heq : (startIONonRT s id).2.2 =
              { s with clients := mapStartIONonRT s.clients id,
                       mStartCount := s.mStartCount + 1 } := by
            simp [startIONonRT, hfind, hdo, hguard, hbgm]
          rw [heq]
          refine ⟨?_, ?_, ?_, ?_⟩
          · show ((mapStartIONonRT s.clients id).map (fun x => x.mClientID)).Nodup
            rw [mapStartIONonRT_ids]; exact hnd
          · show (mapStartIONonRT s.clients id).length < UINT64MAX
            simpa [mapStartIONonRT] using hlen
          · show s.mStartCount + 1 = countDoing (mapStartIONonRT s.clients id)
            omega
          · show s.mStartCountExcludingBGMApp =
              countDoingNonBGM (mapStartIONonRT s.clients id) s.mBGMAppClientID
            rw [hce, if_pos hb]
            omega
        · have hb : ¬ (id : Int) = s.mBGMAppClientID := by
            simpa [isBGMApp] using hbgm
          have hguard2 : ¬ s.mStartCountExcludingBGMApp = UINT64MAX := by
            have h1 := countDoingNonBGM_le s.clients s.mBGMAppClientID
            omega
          have heq : (startIONonRT s id).2.2 =
              { s with clients := mapStartIONonRT s.clients id,
                       mStartCount := s.mStartCount + 1,
                       mStartCountExcludingBGMApp :=
                         s.mStartCountExcludingBGMApp + 1 } := by
            simp [startIONonRT, hfind, hdo, hguard, hbgm, hguard2]
          rw [heq]
          refine ⟨?_, ?_, ?_, ?_⟩
          · show ((mapStartIONonRT s.clients id).map (fun x => x.mClientID)).Nodup
            rw [mapStartIONonRT_ids]; exact hnd
          · show (mapStartIONonRT s.clients id).length < UINT64MAX
            simpa [mapStartIONonRT] using hlen
          · show s.mStartCount + 1 = countDoing (mapStartIONonRT s.clients id)
            omega
          · show s.mStartCountExcludingBGMApp + 1 =
              countDoingNonBGM (mapStartIONonRT s.clients id) s.mBGMAppClientID
            rw [hce, if_neg hb]
            omega

lemma stopIO_WF (s : ClientsState) (id : Nat) (h : WFCounts s) :
    WFCounts (stopIONonRT s id).2.2 := by
  obtain ⟨hnd, hlen, hcount, hexc⟩ := h
  cases hfind : getClientNonRT s.clients id with
  | none =>
      have heq : (stopIONonRT s id).2.2 = s := by simp [stopIONonRT, hfind]
      rw [heq]; exact ⟨hnd, hlen, hcount, hexc⟩
  | some c =>
      by_cases hdo : c.mDoingIOFlag
      · have hdo' : c.mDoingIOFlag = true := by simpa using hdo
        have hmem : c ∈ s.clients := getClientNonRT_mem s.clients id c hfind
        have hcid : c.mClientID = id := getClientNonRT_id s.clients id c hfind
        have hpos : 0 < countDoing s.clients :=
          mem_filter_length_pos s.clients doingPred c hmem (by simpa [doingPred])
        have hnz : ¬ s.mStartCount = 0 := by omega
        have hcd := countDoing_mapStopIONonRT s.clients id c hnd hfind hdo'
        have hce := countDoingNonBGM_mapStopIONonRT s.clients id s.mBGMAppClientID c
          hnd hfind hdo'
        by_cases hbgm : isBGMApp s id
        · have hb : (id : Int) = s.mBGMAppClientID := by
            simpa [isBGMApp] using hbgm
          have heq : (stopIONonRT s id).2.2 =
              { s with clients := mapStopIONonRT s.clients id,
                       mStartCount := s.mStartCount - 1 } := by
            simp [stopIONonRT, hfind, hdo, hnz, hbgm]
          rw [heq]
          refine ⟨?_, ?_, ?_, ?_⟩
          · show ((mapStopIONonRT s.clients id).map (fun x => x.mClientID)).Nodup
            rw [mapStopIONonRT_ids]; exact hnd
          · show (mapStopIONonRT s.clients id).length < UINT64MAX
            simpa [mapStopIONonRT] using hlen
          · show s.mStartCount - 1 = countDoing (mapStopIONonRT s.clients id)
            omega
          · show s.mStartCountExcludingBGMApp =
              countDoingNonBGM (mapStopIONonRT s.clients id) s.mBGMAppClientID
            rw [if_pos hb] at hce
            omega
        · have hb : ¬ (id : Int) = s.mBGMAppClientID := by
            simpa [isBGMApp] using hbgm
          have hpose : 0 < countDoingNonBGM s.clients s.mBGMAppClientID := by
            refine mem_filter_length_pos s.clients _ c hmem ?_
            simp [doingNonBGMPred, hdo', hcid, hb]
          have henz : ¬ s.mStartCountExcludingBGMApp = 0 := by omega
          have heq : (stopIONonRT s id).2.2 =
              { s with clients := mapStopIONonRT s.clients id,
                       mStartCount := s.mStartCount - 1,
                       mStartCountExcludingBGMApp :=
                         s.mStartCountExcludingBGMApp - 1 } := by
            simp [stopIONonRT, hfind, hdo, hnz, hbgm, henz]
          rw [heq]
          refine ⟨?_, ?_, ?_, ?_⟩
          · show ((mapStopIONonRT s.clients id).map (fun x => x.mClientID)).Nodup
            rw [mapStopIONonRT_ids]; exact hnd
          · show (mapStopIONonRT s.clients id).length < UINT64MAX
            simpa [mapStopIONonRT] using hlen
          · show s.mStartCount - 1 = countDoing (mapStopIONonRT s.clients id)
            omega
          · show s.mStartCountExcludingBGMApp - 1 =
              countDoingNonBGM (mapStopIONonRT s.clients id) s.mBGMAppClientID
            rw [if_neg hb] at hce
            omega
      · have heq : (stopIONonRT s id).2.2 = s := by simp [stopIONonRT, hfind, hdo]
        rw [heq]; exact ⟨hnd, hlen, hcount, hexc⟩

lemma runIOOps_WF (ops : List IOOp) :
    ∀ s, WFCounts s → WFCounts (runIOOps s ops) := by
  induction ops with
  | nil => intro s h; exact h
  | cons op rest ih =>
      intro s h
      cases op with
      | start id => exact ih _ (startIO_WF s id h)
      | stop id => exact ih _ (stopIO_WF s id h)

/-- C2: starting from a well-formed idle state (distinct client ids, nobody
doing IO, both counters 0), after any interleaving of `StartIONonRT` and
`StopIONonRT` calls — in particular after every prefix of a balanced
interleaving — `start_count_excluding_control_app` equals `start_count` or
`start_count − 1`. -/
theorem claim_C2 (s0 : ClientsState) (ops : List IOOp)
    (hnd : (s0.clients.map (fun c => c.mClientID)).Nodup)
    (hlen : s0.clients.length < UINT64MAX)
    (hidle : ∀ c ∈ s0.clients, c.mDoingIOFlag = false)
    (hc0 : s0.mStartCount = 0) (he0 : s0.mStartCountExcludingBGMApp = 0) :
    (runIOOps s0 ops).mStartCountExcludingBGMApp = (runIOOps s0 ops).mStartCount ∨
      (runIOOps s0 ops).mStartCountExcludingBGMApp + 1 =
        (runIOOps s0 ops).mStartCount := by
  have hwf0 : WFCounts s0 :=
    ⟨hnd, hlen, by rw [hc0, countDoing_eq_zero s0.clients hidle],
      by rw [he0, countDoingNonBGM_eq_zero s0.clients _ hidle]⟩
  exact WFCounts_inv _ (runIOOps_WF ops s0 hwf0)

/-- Witness for C2: a balanced start/stop pair on the concrete idle state. -/
theorem claim_C2_witness :
    (runIOOps wStateIdle [IOOp.start 1, IOOp.stop 1]).mStartCountExcludingBGMApp =
        (runIOOps wStateIdle [IOOp.start 1, IOOp.stop 1]).mStartCount ∨
      (runIOOps wStateIdle [IOOp.start 1, IOOp.stop 1]).mStartCountExcludingBGMApp + 1 =
        (runIOOps wStateIdle [IOOp.start 1, IOOp.stop 1]).mStartCount :=
  claim_C2 wStateIdle [IOOp.start 1, IOOp.stop 1]
    (by decide) (by decide) (by decide) rfl rfl

/-! ### Claim C6: music-player designation -/

/-- `BGM_Clients::SetMusicPlayer(pid_t)`: rejects negative PIDs, no-ops on
the current designator, otherwise stores the PID, clears the bundle-id
designator and re-evaluates every client's `is_music_player` flag. -/
def setMusicPlayerPID (s : ClientsState) (inPID : Int) :
    Except BGMErr Bool × ClientsState :=
  if inPID < 0 then (.error .invalidPID, s)
  else if s.mMusicPlayerProcessIDProperty = inPID then (.ok false, s)
  else
    (.ok true,
      { s with mMusicPlayerProcessIDProperty := inPID,
               mMusicPlayerBundleIDProperty := "",
               clients := updateMusicPlayerFlagsPID s.clients inPID })

/-- `BGM_Clients::SetMusicPlayer(CACFString)`: symmetric bundle-id variant;
the `Assert` on validity is modelled by taking a (valid) `String`.  Clears
the PID designator by setting it to 0. -/
def setMusicPlayerBundleID (s : ClientsState) (inBundleID : String) :
    Bool × ClientsState :=
  if s.mMusicPlayerBundleIDProperty = inBundleID then (false, s)
  else
    (true,
      { s with mMusicPlayerBundleIDProperty := inBundleID,
               mMusicPlayerProcessIDProperty := 0,
               clients := updateMusicPlayerFlagsBundle s.clients inBundleID })

/-- One music-player designation call. -/
inductive MPOp where
  | byPID : Int → MPOp
  | byBundle : String → MPOp

/-- Run a sequence of designation calls, keeping each call's state. -/
def runMPOps (s : ClientsState) : List MPOp → ClientsState
  | [] => s
  | op :: rest =>
      let s' := match op with
        | .byPID p => (setMusicPlayerPID s p).2
        | .byBundle b => (setMusicPlayerBundleID s b).2
      runMPOps s' rest

/-- At most one of the two music-player designators is active (PID 0 and
the empty bundle string are the "unset" values). -/
def atMostOneDesignator (s : ClientsState) : Prop :=
  s.mMusicPlayerProcessIDProperty = 0 ∨ s.mMusicPlayerBundleIDProperty = ""

lemma mpStep_preserves (s : ClientsState) (op : MPOp)
    (h : atMostOneDesignator s) :
    atMostOneDesignator (match op with
      | .byPID p => (setMusicPlayerPID s p).2
      | .byBundle b => (setMusicPlayerBundleID s b).2) := by
  cases op with
  | byPID p =>
      by_cases h1 : p < 0
      · simpa [setMusicPlayerPID, h1] using h
      · by_cases h2 : s.mMusicPlayerProcessIDProperty = p
        · simpa [setMusicPlayerPID, h1, h2] using h
        · simp [setMusicPlayerPID, h1, h2, atMostOneDesignator]
  | byBundle b =>
      by_cases h2 : s.mMusicPlayerBundleIDProperty = b
      · simpa [setMusicPlayerBundleID, h2] using h
      · simp [setMusicPlayerBundleID, h2, atMostOneDesignator]

/-- C6: `SetMusicPlayer(pid)` fails with `InvalidPID` for negative PIDs,
returns false and changes nothing when the PID equals the current
designator, otherwise stores the PID, clears the bundle designator and
re-evaluates `is_music_player` on every client; the bundle overload
symmetrically clears the PID designator, so any sequence of calls keeps at
most one designator active. -/
theorem claim_C6 :
    (∀ (s : ClientsState) (inPID : Int), inPID < 0 →
      setMusicPlayerPID s inPID = (.error .invalidPID, s)) ∧
    (∀ (s : ClientsState) (inPID : Int), 0 ≤ inPID →
      s.mMusicPlayerProcessIDProperty = inPID →
      setMusicPlayerPID s inPID = (.ok false, s)) ∧
    (∀ (s : ClientsState) (inPID : Int), 0 ≤ inPID →
      s.mMusicPlayerProcessIDProperty ≠ inPID →
      (setMusicPlayerPID s inPID).1 = .ok true ∧
      ((setMusicPlayerPID s inPID).2).mMusicPlayerProcessIDProperty = inPID ∧
      ((setMusicPlayerPID s inPID).2).mMusicPlayerBundleIDProperty = "" ∧
      ((setMusicPlayerPID s inPID).2).clients =
        s.clients.map (fun c =>
          { c with mIsMusicPlayer := decide (inPID ≠ 0 ∧ c.mProcessID = inPID) })) ∧
    (∀ (s : ClientsState) (inBundleID : String),
      s.mMusicPlayerBundleIDProperty ≠ inBundleID →
      (setMusicPlayerBundleID s inBundleID).1 = true ∧
      ((setMusicPlayerBundleID s inBundleID).2).mMusicPlayerProcessIDProperty = 0 ∧
      ((setMusicPlayerBundleID s inBundleID).2).mMusicPlayerBundleIDProperty =
        inBundleID) ∧
    (∀ (s0 : ClientsState) (ops : List MPOp), atMostOneDesignator s0 →
      atMostOneDesignator (runMPOps s0 ops)) := by
  refine ⟨?_, ?_, ?_, ?_, ?_⟩
  · intro s inPID h
    simp [setMusicPlayerPID, h]
  · intro s inPID h1 h2
    simp [setMusicPlayerPID, not_lt.mpr h1, h2]
  · intro s inPID h1 h2
    simp [setMusicPlayerPID, not_lt.mpr h1, h2, updateMusicPlayerFlagsPID]
  · intro s inBundleID h
    simp [setMusicPlayerBundleID, h]
  · intro s0 ops
    induction ops generalizing s0 with
    | nil => intro h; exact h
    | cons op rest ih =>
        intro h
        exact ih _ (mpStep_preserves s0 op h)

/-- Witness for C6 at concrete inputs: a negative PID is rejected, setting
PID 5 succeeds and clears the bundle designator, and a PID-then-bundle
sequence keeps at most one designator active. -/
theorem claim_C6_witness :
    setMusicPlayerPID wStateIdle (-3) = (.error .invalidPID, wStateIdle) ∧
    (setMusicPlayerPID wStateIdle 5).1 = .ok true ∧
    ((setMusicPlayerPID wStateIdle 5).2).mMusicPlayerBundleIDProperty = "" ∧
    atMostOneDesignator
      (runMPOps wStateIdle [MPOp.byPID 5, MPOp.byBundle "com.example.player"]) := by
  refine ⟨?_, ?_, ?_, ?_⟩
  · exact claim_C6.1 wStateIdle (-3) (by norm_num)
  · exact (claim_C6.2.2.1 wStateIdle 5 (by norm_num) (by decide)).1
  · exact (claim_C6.2.2.1 wStateIdle 5 (by norm_num) (by decide)).2.2.1
  · exact claim_C6.2.2.2.2 wStateIdle
      [MPOp.byPID 5, MPOp.byBundle "com.example.player"] (Or.inl rfl)

/-! ### Claim C4: `SetRoute` idempotence -/

/-- The update loop of `BGM_Clients::SetRoute`: find the first edge with
matching (source, dest), overwrite its gain/enabled in place, and report
whether the stored values differed; `none` when no edge matches. -/
def updateRouteInList (src dst : Int) (g : ℚ) (e : Bool) :
    List BGM_AudioRoute → Option (Bool × List BGM_AudioRoute)
  | [] => none
  | route :: rest =>
      if route.mSourcePID = src ∧ route.mDestPID = dst then
        some (decide (route.mGain ≠ g ∨ route.mEnabled ≠ e),
          { route with mGain := g, mEnabled := e } :: rest)
      else
        (updateRouteInList src dst g e rest).map (fun p => (p.1, route :: p.2))

/-- `BGM_Clients::SetRoute`: update an existing edge in place, or append a
new edge (allocating the source's routing buffer) when enabled, or no-op. -/
def setRoute (s : ClientsState) (inSourcePID inDestPID : Int) (inGain : ℚ)
    (inEnabled : Bool) : Bool × ClientsState :=
  match updateRouteInList inSourcePID inDestPID inGain inEnabled s.mRoutes with
  | some (changed, routes') => (changed, { s with mRoutes := routes' })
  | none =>
      if inEnabled then
        (true,
          { s with
              mRoutes := s.mRoutes ++
                [⟨inSourcePID, inDestPID, inGain, inEnabled⟩],
              clients := allocateRoutingBufferForPID s.clients inSourcePID })
      else (false, s)

lemma updateRoute_idem (src dst : Int) (g : ℚ) (e : Bool) :
    ∀ (l : List BGM_AudioRoute) (ch : Bool) (l' : List BGM_AudioRoute),
      updateRouteInList src dst g e l = some (ch, l') →
      updateRouteInList src dst g e l' = some (false, l') := by
  intro l
  induction l with
  | nil => intro ch l' h; simp [updateRouteInList] at h
  | cons a rest ih =>
      intro ch l' h
      by_cases hm : a.mSourcePID = src ∧ a.mDestPID = dst
      · rw [updateRouteInList, if_pos hm] at h
        obtain ⟨-, hl⟩ := Prod.mk.injEq _ _ _ _ ▸ Option.some.inj h
        subst hl
        rw [updateRouteInList, if_pos (by exact hm)]
        simp
      · rw [updateRouteInList, if_neg hm] at h
        rcases Option.map_eq_some'.mp h with ⟨p, hp, hpe⟩
        obtain ⟨hch, hl⟩ := Prod.mk.injEq _ _ _ _ ▸ hpe
        subst hl
        rw [updateRouteInList, if_neg hm, ih p.1 p.2 (by simpa using hp)]
        rfl

lemma updateRoute_none_iff (src dst : Int) (g : ℚ) (e : Bool) :
    ∀ (l : List BGM_AudioRoute),
      updateRouteInList src dst g e l = none ↔
        l.find? (fun r => r.mSourcePID = src ∧ r.mDestPID = dst) = none := by
  intro l
  induction l with
  | nil => simp [updateRouteInList]
  | cons a rest ih =>
      by_cases hm : a.mSourcePID = src ∧ a.mDestPID = dst
      · rw [updateRouteInList, if_pos hm]
        simp [List.find?_cons, hm]
      · rw [updateRouteInList, if_neg hm]
        simp only [Option.map_eq_none', List.find?_cons]
        rw [show decide (a.mSourcePID = src ∧ a.mDestPID = dst) = false by
          simpa using hm]
        exact ih

lemma updateRoute_append_new (src dst : Int) (g : ℚ) (e : Bool) :
    ∀ (l : List BGM_AudioRoute),
      updateRouteInList src dst g e l = none →
      updateRouteInList src dst g e (l ++ [⟨src, dst, g, e⟩]) =
        some (false, l ++ [⟨src, dst, g, e⟩]) := by
  intro l
  induction l with
  | nil =>
      intro _
      rw [List.nil_append, updateRouteInList, if_pos ⟨rfl, rfl⟩]
      simp
  | cons a rest ih =>
      intro h
      by_cases hm : a.mSourcePID = src ∧ a.mDestPID = dst
      · rw [updateRouteInList, if_pos hm] at h
        simp at h
      · rw [updateRouteInList, if_neg hm] at h
        rw [List.cons_append, updateRouteInList, if_neg hm,
          ih (by simpa using h)]
        rfl

lemma updateRoute_of_find (src dst : Int) (g : ℚ) (e : Bool) :
    ∀ (l : List BGM_AudioRoute) (rt : BGM_AudioRoute),
      l.find? (fun r => r.mSourcePID = src ∧ r.mDestPID = dst) = some rt →
      ∃ l', updateRouteInList src dst g e l =
        some (decide (rt.mGain ≠ g ∨ rt.mEnabled ≠ e), l') := by
  intro l
  induction l with
  | nil => intro rt h; simp at h
  | cons a rest ih =>
      intro rt h
      by_cases hm : a.mSourcePID = src ∧ a.mDestPID = dst
      · have hra : rt = a := by
          rw [List.find?_cons,
            show decide (a.mSourcePID = src ∧ a.mDestPID = dst) = true by
              simpa using hm] at h
          have h' : some a = some rt := h
          exact (Option.some.inj h').symm
        subst hra
        exact ⟨_, by rw [updateRouteInList, if_pos hm]⟩
      · have h2 : rest.find? (fun r => r.mSourcePID = src ∧ r.mDestPID = dst) =
            some rt := by
          rw [List.find?_cons,
            show decide (a.mSourcePID = src ∧ a.mDestPID = dst) = false by
              simpa using hm] at h
          exact h
        rcases ih rt h2 with ⟨l', hl⟩
        exact ⟨a :: l', by rw [updateRouteInList, if_neg hm, hl]; rfl⟩

/-- C4: calling `SetRoute` twice with the same (source, dest, gain, enabled)
tuple is idempotent — the graph after the second call equals the graph after
the first and the second call returns `changed = false` — and updating an
existing edge returns true iff the stored gain or enabled flag differs. -/
theorem claim_C4 (s : ClientsState) (src dst : Int) (g : ℚ) (e : Bool) :
    ((setRoute (setRoute s src dst g e).2 src dst g e).2).mRoutes =
      ((setRoute s src dst g e).2).mRoutes ∧
    (setRoute (setRoute s src dst g e).2 src dst g e).1 = false ∧
    (∀ rt, s.mRoutes.find? (fun r => r.mSourcePID = src ∧ r.mDestPID = dst) =
        some rt →
      (setRoute s src dst g e).1 = decide (rt.mGain ≠ g ∨ rt.mEnabled ≠ e)) := by
  have hmain : ((setRoute (setRoute s src dst g e).2 src dst g e).2).mRoutes =
      ((setRoute s src dst g e).2).mRoutes ∧
      (setRoute (setRoute s src dst g e).2 src dst g e).1 = false := by
    cases hup : updateRouteInList src dst g e s.mRoutes with
    | some p =>
        obtain ⟨ch, l'⟩ := p
        have hs1 : (setRoute s src dst g e).2 = { s with mRoutes := l' } := by
          simp [setRoute, hup]
        have h2 := updateRoute_idem src dst g e s.mRoutes ch l' hup
        rw [hs1]
        simp [setRoute, h2]
    | none =>
        by_cases he : e
        · subst he
          have h2 := updateRoute_append_new src dst g true s.mRoutes hup
          have hs1 : (setRoute s src dst g true).2 =
              { s with
                  mRoutes := s.mRoutes ++ [⟨src, dst, g, true⟩],
                  clients := allocateRoutingBufferForPID s.clients src } := by
            simp [setRoute, hup]
          rw [hs1]
          simp [setRoute, h2]
        · have he' : e = false := by simpa using he
          subst he'
          have hs1 : (setRoute s src dst g false).2 = s := by
            simp [setRoute, hup]
          rw [hs1]
          simp [setRoute, hup]
  refine ⟨hmain.1, hmain.2, ?_⟩
  intro rt hfind
  rcases updateRoute_of_find src dst g e s.mRoutes rt hfind with ⟨l', hl⟩
  simp [setRoute, hl]

/-- A concrete engine state holding one enabled route 200 → 201. -/
def wRouteState : ClientsState :=
  { clients := [], mRoutes := [⟨200, 201, 1, true⟩] }

/-- Witness for C4 at concrete inputs: repeating `SetRoute(200, 201, 1/2,
enabled)` leaves the graph unchanged and reports no change; updating the
stored gain 1/2 to 3/4 reports a change. -/
theorem claim_C4_witness :
    ((setRoute (setRoute wStateIdle 200 201 1 true).2 200 201 1 true).2).mRoutes =
      ((setRoute wStateIdle 200 201 1 true).2).mRoutes ∧
    (setRoute (setRoute wStateIdle 200 201 1 true).2 200 201 1 true).1 = false ∧
    (setRoute wRouteState 200 201 2 true).1 = true := by
  have h := claim_C4 wStateIdle 200 201 1 true
  refine ⟨h.1, h.2.1, ?_⟩
  have h2 := (claim_C4 wRouteState 200 201 2 true).2.2 ⟨200, 201, 1, true⟩ rfl
  rw [h2]
  norm_num

/-! ### Claim C9: batch route updates refine the single-edge path -/

/-- A parsed route dictionary as `SetRoutesFromArray` reads it: each CF key
may be absent.  A `none` entry models an array element that is not a
dictionary (`IsValid()` false). -/
structure RouteDict where
  sourcePID : Option Int
  destPID : Option Int
  gain : Option ℚ
  enabled : Option Bool

/-- The inline update loop of `BGM_Clients::SetRoutesFromArray`: unlike
`SetRoute` it writes the edge only when gain or enabled differ, and reports
whether it wrote. -/
def updateRouteIfChanged (src dst : Int) (g : ℚ) (e : Bool) :
    List BGM_AudioRoute → Option (Bool × List BGM_AudioRoute)
  | [] => none
  | route :: rest =>
      if route.mSourcePID = src ∧ route.mDestPID = dst then
        if route.mGain ≠ g ∨ route.mEnabled ≠ e then
          some (true, { route with mGain := g, mEnabled := e } :: rest)
        else
          some (false, route :: rest)
      else
        (updateRouteIfChanged src dst g e rest).map (fun p => (p.1, route :: p.2))

/-- The entry loop of `BGM_Clients::SetRoutesFromArray`: skip non-dictionary
entries and entries missing the source or dest PID, default gain to 1.0 and
enabled to true, and update/append directly on `mRoutes` (the lock is
already held, so the single-edge path is not re-entered). -/
def setRoutesFromArrayLoop (s : ClientsState) (didChange : Bool) :
    List (Option RouteDict) → Bool × ClientsState
  | [] => (didChange, s)
  | entry :: rest =>
      match entry with
      | none => setRoutesFromArrayLoop s didChange rest
      | some d =>
          match d.sourcePID with
          | none => setRoutesFromArrayLoop s didChange rest
          | some sourcePID =>
              match d.destPID with
              | none => setRoutesFromArrayLoop s didChange rest
              | some destPID =>
                  let gain := d.gain.getD 1
                  let enabled := d.enabled.getD true
                  match updateRouteIfChanged sourcePID destPID gain enabled
                      s.mRoutes with
                  | some (ch, routes') =>
                      setRoutesFromArrayLoop { s with mRoutes := routes' }
                        (didChange || ch) rest
                  | none =>
                      if enabled then
                        setRoutesFromArrayLoop
                          { s with
                              mRoutes := s.mRoutes ++
                                [⟨sourcePID, destPID, gain, enabled⟩],
                              clients := allocateRoutingBufferForPID s.clients
                                sourcePID }
                          true rest
                      else
                        setRoutesFromArrayLoop s didChange rest

/-- `BGM_Clients::SetRoutesFromArray`. -/
def setRoutesFromArray (s : ClientsState) (inRoutes : List (Option RouteDict)) :
    Bool × ClientsState :=
  setRoutesFromArrayLoop s false inRoutes

/-- The claimed specification of the batch: parse each entry (skipping
entries that are not dictionaries or miss the source or dest PID; gain
defaults to 1.0, enabled to true). -/
def parseRouteDict : Option RouteDict → Option (Int × Int × ℚ × Bool)
  | none => none
  | some d =>
      match d.sourcePID, d.destPID with
      | some src, some dst => some (src, dst, d.gain.getD 1, d.enabled.getD true)
      | _, _ => none

/-- The claimed specification of the batch: apply the single-edge `SetRoute`
semantics entry-by-entry and OR the changed flags. -/
def setRouteSpecFoldLoop (s : ClientsState) (acc : Bool) :
    List (Option RouteDict) → Bool × ClientsState
  | [] => (acc, s)
  | entry :: rest =>
      match parseRouteDict entry with
      | none => setRouteSpecFoldLoop s acc rest
      | some (src, dst, g, en) =>
          setRouteSpecFoldLoop (setRoute s src dst g en).2
            (acc || (setRoute s src dst g en).1) rest

/-- Entry-by-entry `SetRoute` with the batch defaults, starting not-changed. -/
def setRouteSpecFold (s : ClientsState) (inRoutes : List (Option RouteDict)) :
    Bool × ClientsState :=
  setRouteSpecFoldLoop s false inRoutes

lemma updateRouteIfChanged_eq (src dst : Int) (g : ℚ) (e : Bool) :
    ∀ (l : List BGM_AudioRoute),
      updateRouteIfChanged src dst g e l = updateRouteInList src dst g e l := by
  intro l
  induction l with
  | nil => rfl
  | cons route rest ih =>
      by_cases hm : route.mSourcePID = src ∧ route.mDestPID = dst
      · rw [updateRouteIfChanged, if_pos hm, updateRouteInList, if_pos hm]
        by_cases hc : route.mGain ≠ g ∨ route.mEnabled ≠ e
        · rw [if_pos hc]
          simp [hc]
        · rw [if_neg hc]
          push_neg at hc
          have hroute : { route with mGain := g, mEnabled := e } = route := by
            cases route
            simp_all
          rw [hroute]
          simp [hc.1, hc.2]
      · rw [updateRouteIfChanged, if_neg hm, updateRouteInList, if_neg hm, ih]

lemma setRoutes_loop_eq (entries : List (Option RouteDict)) :
    ∀ (s : ClientsState) (acc : Bool),
      setRoutesFromArrayLoop s acc entries = setRouteSpecFoldLoop s acc entries := by
  induction entries with
  | nil => intro s acc; rfl
  | cons entry rest ih =>
      intro s acc
      cases entry with
      | none =>
          simp only [setRoutesFromArrayLoop, setRouteSpecFoldLoop, parseRouteDict]
          exact ih s acc
      | some d =>
          cases hsrc : d.sourcePID with
          | none =>
              simp only [setRoutesFromArrayLoop, setRouteSpecFoldLoop,
                parseRouteDict, hsrc]
              exact ih s acc
          | some sourcePID =>
              cases hdst : d.destPID with
              | none =>
                  simp only [setRoutesFromArrayLoop, setRouteSpecFoldLoop,
                    parseRouteDict, hsrc, hdst]
                  exact ih s acc
              | some destPID =>
                  simp only [setRoutesFromArrayLoop, setRouteSpecFoldLoop,
                    parseRouteDict, hsrc, hdst]
                  rw [updateRouteIfChanged_eq]
                  cases hup : updateRouteInList sourcePID destPID
                      (d.gain.getD 1) (d.enabled.getD true) s.mRoutes with
                  | some p =>
                      obtain ⟨ch, routes'⟩ := p
                      have hsr : setRoute s sourcePID destPID (d.gain.getD 1)
                          (d.enabled.getD true) =
                          (ch, { s with mRoutes := routes' }) := by
                        simp [setRoute, hup]
                      rw [hsr]
                      exact ih _ _
                  | none =>
                      by_cases he : d.enabled.getD true
                      · have hupt : updateRouteInList sourcePID destPID
                            (d.gain.getD 1) true s.mRoutes = none := by
                          rwa [he] at hup
                        have hsr : setRoute s sourcePID destPID (d.gain.getD 1)
                            (d.enabled.getD true) =
                            (true,
                              { s with
                                  mRoutes := s.mRoutes ++
                                    [⟨sourcePID, destPID, d.gain.getD 1,
                                      d.enabled.getD true⟩],
                                  clients := allocateRoutingBufferForPID
                                    s.clients sourcePID }) := by
                          simp [setRoute, hupt, he]
                        rw [if_pos he, hsr, Bool.or_true]
                        exact ih _ _
                      · have he' : d.enabled.getD true = false := by
                          simpa using he
                        have hupf : updateRouteInList sourcePID destPID
                            (d.gain.getD 1) false s.mRoutes = none := by
                          rwa [he'] at hup
                        have hsr : setRoute s sourcePID destPID (d.gain.getD 1)
                            (d.enabled.getD true) = (false, s) := by
                          simp [setRoute, hupf, he']
                        rw [if_neg he, hsr, Bool.or_false]
                        exact ih _ _

/-- C9: `SetRoutesFromArray` equals applying the single-edge `SetRoute`
semantics entry-by-entry, with gain defaulting to 1.0 and enabled to true,
skipping entries that are not dictionaries or miss a PID; the resulting
state is identical and the returned flag is the OR of the per-entry
`SetRoute` changed flags (true iff some edge was added or modified). -/
theorem claim_C9 (s : ClientsState) (inRoutes : List (Option RouteDict)) :
    setRoutesFromArray s inRoutes = setRouteSpecFold s inRoutes :=
  setRoutes_loop_eq inRoutes s false

/-! ### Claim C8: `MixRoutedAudioRT` -/

/-- The per-route frame loop of `BGM_Clients::MixRoutedAudioRT`: for each
output frame, fetch both channels of the source ring at
`sample_offset = num_frames − frame` and add them, scaled by the route
gain, into the interleaved io buffer. -/
def mixGo (src : BGM_Client) (g : ℚ) (n : Nat) (frame : Nat)
    (buf : Nat → ℚ) : Nat → ℚ :=
  if frame < n then
    mixGo src g n (frame + 1) (fun j =>
      if j = frame * 2 then
        buf j + fetchFromRoutingBuffer src 0 (n - frame) * g
      else if j = frame * 2 + 1 then
        buf j + fetchFromRoutingBuffer src 1 (n - frame) * g
      else buf j)
  else buf
termination_by n - frame

/-- The route-scan body of `MixRoutedAudioRT`: skip disabled routes and
routes targeting another PID, skip routes whose source PID matches no
client, and otherwise mix the source's ring buffer into the io buffer. -/
def mixStepBuf (s : ClientsState) (destPID : Int) (n : Nat)
    (buf : Nat → ℚ) (route : BGM_AudioRoute) : Nat → ℚ :=
  if ¬route.mEnabled ∨ route.mDestPID ≠ destPID then buf
  else
    match getClientByPIDRT s.clients route.mSourcePID with
    | none => buf
    | some sourceClient => mixGo sourceClient route.mGain n 0 buf

/-- `BGM_Clients::MixRoutedAudioRT` on an io buffer modelled as
`Nat → ℚ` (interleaved stereo, frame `i` at indices `i * 2`, `i * 2 + 1`). -/
def mixRoutedAudioRT (s : ClientsState) (inClientID : Nat) (io : Nat → ℚ)
    (inNumFrames : Nat) : Nat → ℚ :=
  match getClientNonRT s.clients inClientID with
  | none => io
  | some destClient =>
      s.mRoutes.foldl (mixStepBuf s destClient.mProcessID inNumFrames) io

/-- What one route adds to one sample: nothing if the route is disabled,
targets another PID or has no matching source client; else the fetched
source sample scaled by the route's gain. -/
def mixAccStep (s : ClientsState) (destPID : Int) (chan : Int) (off : Nat)
    (acc : ℚ) (route : BGM_AudioRoute) : ℚ :=
  if ¬route.mEnabled ∨ route.mDestPID ≠ destPID then acc
  else
    match getClientByPIDRT s.clients route.mSourcePID with
    | none => acc
    | some sourceClient =>
        acc + fetchFromRoutingBuffer sourceClient chan off * route.mGain

/-- Total contribution of all routes to one channel sample of the
destination. -/
def mixContribution (s : ClientsState) (destPID : Int) (chan : Int)
    (off : Nat) : ℚ :=
  s.mRoutes.foldl (mixAccStep s destPID chan off) 0

lemma mixGo_lower (src : BGM_Client) (g : ℚ) (n : Nat) :
    ∀ (k frame0 : Nat), n - frame0 = k →
      ∀ (buf : Nat → ℚ) (j : Nat), j < frame0 * 2 →
        mixGo src g n frame0 buf j = buf j := by
  intro k
  induction k with
  | zero =>
      intro frame0 hk buf j hj
      have hfr : ¬ frame0 < n := by omega
      rw [mixGo, if_neg hfr]
  | succ k ihk =>
      intro frame0 hk buf j hj
      by_cases hfr : frame0 < n
      · rw [mixGo, if_pos hfr, ihk (frame0 + 1) (by omega) _ j (by omega)]
        rw [if_neg (by omega), if_neg (by omega)]
      · rw [mixGo, if_neg hfr]

lemma mixGo_val (src : BGM_Client) (g : ℚ) (n : Nat) :
    ∀ (k frame0 : Nat), n - frame0 = k →
      ∀ (buf : Nat → ℚ) (i : Nat), frame0 ≤ i → i < n →
        mixGo src g n frame0 buf (i * 2) =
          buf (i * 2) + fetchFromRoutingBuffer src 0 (n - i) * g ∧
        mixGo src g n frame0 buf (i * 2 + 1) =
          buf (i * 2 + 1) + fetchFromRoutingBuffer src 1 (n - i) * g := by
  intro k
  induction k with
  | zero => intro frame0 hk buf i h1 h2; omega
  | succ k ihk =>
      intro frame0 hk buf i h1 h2
      have hfr : frame0 < n := by omega
      rw [mixGo, if_pos hfr]
      rcases Nat.eq_or_lt_of_le h1 with heq | hlt
      · subst heq
        constructor
        · rw [mixGo_lower src g n k (frame0 + 1) (by omega) _ (frame0 * 2)
            (by omega)]
          simp
        · rw [mixGo_lower src g n k (frame0 + 1) (by omega) _ (frame0 * 2 + 1)
            (by omega)]
          rw [if_neg (by omega)]
          simp
      · have h1' : frame0 + 1 ≤ i := hlt
        constructor
        · rw [(ihk (frame0 + 1) (by omega) _ i h1' h2).1,
              if_neg (by omega), if_neg (by omega)]
        · rw [(ihk (frame0 + 1) (by omega) _ i h1' h2).2,
              if_neg (by omega), if_neg (by omega)]

lemma mixAccStep_shift (s : ClientsState) (destPID : Int) (chan : Int)
    (off : Nat) :
    ∀ (routes : List BGM_AudioRoute) (a : ℚ),
      routes.foldl (mixAccStep s destPID chan off) a =
        a + routes.foldl (mixAccStep s destPID chan off) 0 := by
  intro routes
  induction routes with
  | nil => intro a; simp
  | cons r rest ih =>
      intro a
      have hstep : mixAccStep s destPID chan off a r =
          a + mixAccStep s destPID chan off 0 r := by
        unfold mixAccStep
        by_cases hskip : ¬r.mEnabled ∨ r.mDestPID ≠ destPID
        · rw [if_pos hskip, if_pos hskip]
          ring
        · rw [if_neg hskip, if_neg hskip]
          cases getClientByPIDRT s.clients r.mSourcePID with
          | none => ring
          | some sourceClient => ring
      simp only [List.foldl_cons]
      rw [ih (mixAccStep s destPID chan off a r),
          ih (mixAccStep s destPID chan off 0 r), hstep]
      ring

lemma mix_fold_val (s : ClientsState) (destPID : Int) (n i : Nat) (hi : i < n) :
    ∀ (routes : List BGM_AudioRoute) (buf : Nat → ℚ),
      (routes.foldl (mixStepBuf s destPID n) buf) (i * 2) =
        buf (i * 2) + routes.foldl (mixAccStep s destPID 0 (n - i)) 0 ∧
      (routes.foldl (mixStepBuf s destPID n) buf) (i * 2 + 1) =
        buf (i * 2 + 1) + routes.foldl (mixAccStep s destPID 1 (n - i)) 0 := by
  intro routes
  induction routes with
  | nil => intro buf; simp
  | cons r rest ih =>
      intro buf
      simp only [List.foldl_cons]
      obtain ⟨ih1, ih2⟩ := ih (mixStepBuf s destPID n buf r)
      rw [ih1, ih2,
          mixAccStep_shift s destPID 0 (n - i) rest
            (mixAccStep s destPID 0 (n - i) 0 r),
          mixAccStep_shift s destPID 1 (n - i) rest
            (mixAccStep s destPID 1 (n - i) 0 r)]
      have hstep0 : mixStepBuf s destPID n buf r (i * 2) =
          buf (i * 2) + mixAccStep s destPID 0 (n - i) 0 r := by
        unfold mixStepBuf mixAccStep
        by_cases hskip : ¬r.mEnabled ∨ r.mDestPID ≠ destPID
        · rw [if_pos hskip, if_pos hskip]
          ring
        · rw [if_neg hskip, if_neg hskip]
          cases getClientByPIDRT s.clients r.mSourcePID with
          | none => ring
          | some sourceClient =>
              show mixGo sourceClient r.mGain n 0 buf (i * 2) =
                buf (i * 2) +
                  (0 + fetchFromRoutingBuffer sourceClient 0 (n - i) * r.mGain)
              rw [(mixGo_val sourceClient r.mGain n n 0 (by omega) buf i
                (Nat.zero_le i) hi).1]
              ring
      have hstep1 : mixStepBuf s destPID n buf r (i * 2 + 1) =
          buf (i * 2 + 1) + mixAccStep s destPID 1 (n - i) 0 r := by
        unfold mixStepBuf mixAccStep
        by_cases hskip : ¬r.mEnabled ∨ r.mDestPID ≠ destPID
        · rw [if_pos hskip, if_pos hskip]
          ring
        · rw [if_neg hskip, if_neg hskip]
          cases getClientByPIDRT s.clients r.mSourcePID with
          | none => ring
          | some sourceClient =>
              show mixGo sourceClient r.mGain n 0 buf (i * 2 + 1) =
                buf (i * 2 + 1) +
                  (0 + fetchFromRoutingBuffer sourceClient 1 (n - i) * r.mGain)
              rw [(mixGo_val sourceClient r.mGain n n 0 (by omega) buf i
                (Nat.zero_le i) hi).2]
              ring
      rw [hstep0, hstep1]
      constructor <;> ring

/-- C8: on a found destination client and a frame index `i < num_frames`,
`MixRoutedAudioRT` adds (does not overwrite) into `io[i*2]` and `io[i*2+1]`
the sum, over the enabled routes targeting the destination PID whose source
PID matches some client, of the route gain times the source ring-buffer
sample at `sample_offset = num_frames − i`; disabled routes, routes for
other PIDs and routes with no matching source contribute nothing to that
sum. -/
theorem claim_C8 (s : ClientsState) (inClientID : Nat)
    (destClient : BGM_Client) (io : Nat → ℚ) (inNumFrames i : Nat)
    (hfind : getClientNonRT s.clients inClientID = some destClient)
    (hi : i < inNumFrames) :
    mixRoutedAudioRT s inClientID io inNumFrames (i * 2) =
      io (i * 2) +
        mixContribution s destClient.mProcessID 0 (inNumFrames - i) ∧
    mixRoutedAudioRT s inClientID io inNumFrames (i * 2 + 1) =
      io (i * 2 + 1) +
        mixContribution s destClient.mProcessID 1 (inNumFrames - i) := by
  unfold mixRoutedAudioRT mixContribution
  rw [hfind]
  exact mix_fold_val s destClient.mProcessID inNumFrames i hi s.mRoutes io

/-- A concrete source client whose ring holds one stored frame (5, 6). -/
def wMixSource : BGM_Client :=
  { mClientID := 1, mProcessID := 200,
    mRoutingBuffer := some ⟨fun j => if j = 0 then 5 else if j = 1 then 6 else 0, 1⟩ }

/-- A concrete destination client. -/
def wMixDest : BGM_Client := { mClientID := 2, mProcessID := 201 }

/-- A state with the source, the destination and one enabled route
200 → 201 of gain 2. -/
def wMixState : ClientsState :=
  { clients := [wMixSource, wMixDest], mRoutes := [⟨200, 201, 2, true⟩] }

/-- Witness for C8: mixing one frame for the destination adds 5·2 = 10 into
the left sample and 6·2 = 12 into the right sample of a zero io buffer. -/
theorem claim_C8_witness :
    mixRoutedAudioRT wMixState 2 (fun _ => 0) 1 (0 * 2) = 10 ∧
    mixRoutedAudioRT wMixState 2 (fun _ => 0) 1 (0 * 2 + 1) = 12 := by
  have h := claim_C8 wMixState 2 wMixDest (fun _ => 0) 1 0 rfl (by norm_num)
  constructor
  · rw [h.1]
    norm_num [mixContribution, mixAccStep, wMixState, wMixSource, wMixDest,
      getClientByPIDRT, fetchFromRoutingBuffer, kRoutingBufferFrames,
      kRoutingBufferChannels]
  · rw [h.2]
    norm_num [mixContribution, mixAccStep, wMixState, wMixSource, wMixDest,
      getClientByPIDRT, fetchFromRoutingBuffer, kRoutingBufferFrames,
      kRoutingBufferChannels]

/-! ### Claim C7: per-entry atomicity of `SetClientsRelativeVolumes` -/

/-- Modelled from the spec: `CAVolumeCurve::ConvertRawToScalar` with the
default `kPow2Over1Curve` transfer function (the curve implementation is not
under the sources): the raw value is normalised into [0, 1] and squared.
The ×4 calibration is applied by the caller, as in the source. -/
def convertRawToScalar (raw : Int) : ℚ :=
  (((raw - kAppRelativeVolumeMinRawValue : Int) : ℚ) /
    ((kAppRelativeVolumeMaxRawValue - kAppRelativeVolumeMinRawValue : Int) : ℚ)) ^ 2

/-- One dictionary of the app-volumes batch, with each CF key optional.
The C++ leaves `theAppPID` uninitialised when the PID key is absent and the
later by-PID updates then match no real client; an absent key is therefore
modelled as matching no client. -/
structure VolumeEntry where
  processID : Option Int
  bundleID : Option String
  relativeVolume : Option Int
  panPosition : Option Int
  eqLow : Option Int
  eqMid : Option Int
  eqHigh : Option Int

/-- Modelled from the spec: by-PID matching in the client map's batch
setters (absent key matches nothing). -/
def matchPID (pid? : Option Int) (c : BGM_Client) : Bool :=
  match pid? with
  | none => false
  | some pid => c.mProcessID = pid

/-- Modelled from the spec: by-bundle-id matching (an invalid/absent
CACFString matches nothing). -/
def matchBundle (b? : Option String) (c : BGM_Client) : Bool :=
  match b? with
  | none => false
  | some b => c.mBundleID = some b

/-- Modelled from the spec: `BGM_ClientMap::SetClientsRelativeVolume` —
store the linear gain on every matching client, reporting whether any
stored value changed. -/
def setClientsRelativeVolumeBy (m : ClientMap) (who : BGM_Client → Bool)
    (v : ℚ) : Bool × ClientMap :=
  (m.any (fun c => who c && decide (c.mRelativeVolume ≠ v)),
   m.map (fun c => if who c then { c with mRelativeVolume := v } else c))

/-- Modelled from the spec: `BGM_ClientMap::SetClientsPanPosition`. -/
def setClientsPanPositionBy (m : ClientMap) (who : BGM_Client → Bool)
    (p : Int) : Bool × ClientMap :=
  (m.any (fun c => who c && decide (c.mPanPosition ≠ p)),
   m.map (fun c => if who c then { c with mPanPosition := p } else c))

/-- Write the three EQ bands on one client, leaving a band untouched when
its value is the `kAppEQGainNoValue` sentinel. -/
def applyEQ (c : BGM_Client) (low mid high : ℚ) : BGM_Client :=
  { c with
      mEQLowGain := if low = kAppEQGainNoValue then c.mEQLowGain else low,
      mEQMidGain := if mid = kAppEQGainNoValue then c.mEQMidGain else mid,
      mEQHighGain := if high = kAppEQGainNoValue then c.mEQHighGain else high }

/-- Does writing these bands change the client's stored EQ gains? -/
def eqDiffers (c : BGM_Client) (low mid high : ℚ) : Bool :=
  (decide (low ≠ kAppEQGainNoValue) && decide (c.mEQLowGain ≠ low)) ||
  (decide (mid ≠ kAppEQGainNoValue) && decide (c.mEQMidGain ≠ mid)) ||
  (decide (high ≠ kAppEQGainNoValue) && decide (c.mEQHighGain ≠ high))

/-- Modelled from the spec: `BGM_ClientMap::SetClientsEQ` (the sample-rate
argument only parameterises the out-of-scope biquad recomputation). -/
def setClientsEQBy (m : ClientMap) (who : BGM_Client → Bool)
    (low mid high sampleRate : ℚ) : Bool × ClientMap :=
  (m.any (fun c => who c && eqDiffers c low mid high),
   m.map (fun c => if who c then applyEQ c low mid high else c))

/-- Is this optional raw EQ value present and out of range? -/
def eqRawBad (v? : Option Int) : Bool :=
  match v? with
  | none => false
  | some v => decide (v < kAppEQGainMinRawValue) || decide (kAppEQGainMaxRawValue < v)

/-- The relative-volume paragraph of `SetClientsRelativeVolumes`: validate
the raw range before applying, apply by PID and then by bundle id.  Returns
(didGetVolume, didChange, clients). -/
def volumeBlock (clients : ClientMap) (e : VolumeEntry) :
    Except BGMErr (Bool × Bool × ClientMap) :=
  match e.relativeVolume with
  | none => .ok (false, false, clients)
  | some theRawRelativeVolume =>
      if theRawRelativeVolume < kAppRelativeVolumeMinRawValue ∨
          kAppRelativeVolumeMaxRawValue < theRawRelativeVolume then
        .error .invalidRelativeVolume
      else
        let theRelativeVolume := convertRawToScalar theRawRelativeVolume * 4
        let r1 := setClientsRelativeVolumeBy clients (matchPID e.processID)
          theRelativeVolume
        let r2 := setClientsRelativeVolumeBy r1.2 (matchBundle e.bundleID)
          theRelativeVolume
        .ok (true, r1.1 || r2.1, r2.2)

/-- The pan paragraph: validate before applying.  Returns
(didGetPanPosition, didChange, clients). -/
def panBlock (clients : ClientMap) (e : VolumeEntry) :
    Except BGMErr (Bool × Bool × ClientMap) :=
  match e.panPosition with
  | none => .ok (false, false, clients)
  | some thePanPosition =>
      if thePanPosition < kAppPanLeftRawValue ∨
          kAppPanRightRawValue < thePanPosition then
        .error .invalidPanPosition
      else
        let r1 := setClientsPanPositionBy clients (matchPID e.processID)
          thePanPosition
        let r2 := setClientsPanPositionBy r1.2 (matchBundle e.bundleID)
          thePanPosition
        .ok (true, r1.1 || r2.1, r2.2)

/-- Convert an optional raw EQ value (tenths of dB) to dB, absent values
becoming the sentinel. -/
def eqDBOf (v? : Option Int) : ℚ :=
  match v? with
  | some v => (v : ℚ) / 10
  | none => kAppEQGainNoValue

/-- Apply the EQ triple by PID and then by bundle id, reporting whether
either setter changed a record. -/
def eqApplyBoth (clients : ClientMap) (pid? : Option Int) (b? : Option String)
    (low mid high : ℚ) : Bool × ClientMap :=
  let r1 := setClientsEQBy clients (matchPID pid?) low mid high 48000
  let r2 := setClientsEQBy r1.2 (matchBundle b?) low mid high 48000
  (r1.1 || r2.1, r2.2)

/-- The EQ paragraph: validate all present bands (in tenths of dB) before
applying; absent bands become the sentinel.  `didGetEQ` in the source is set
only when one of the map setters reports a change, so the triple's first
component is the changed flag. -/
def eqBlock (clients : ClientMap) (e : VolumeEntry) :
    Except BGMErr (Bool × Bool × ClientMap) :=
  if e.eqLow = none ∧ e.eqMid = none ∧ e.eqHigh = none then
    .ok (false, false, clients)
  else
    if eqRawBad e.eqLow || eqRawBad e.eqMid || eqRawBad e.eqHigh then
      .error .invalidRelativeVolume
    else
      let r := eqApplyBoth clients e.processID e.bundleID
        (eqDBOf e.eqLow) (eqDBOf e.eqMid) (eqDBOf e.eqHigh)
      .ok (r.1, r.1, r.2)

/-- One iteration of the `SetClientsRelativeVolumes` entry loop.  Each
`ThrowIf` aborts the whole batch; the state it leaves behind holds every
mutation of the earlier blocks of the same entry. -/
def setClientsRelativeVolumesStep (s : ClientsState) (e : VolumeEntry) :
    Except BGMErr Bool × ClientsState :=
  if e.processID = none ∧ e.bundleID = none then
    (.error .invalidRelativeVolume, s)
  else
    match volumeBlock s.clients e with
    | .error err => (.error err, s)
    | .ok (didGetVolume, ch1, clients1) =>
        match panBlock clients1 e with
        | .error err => (.error err, { s with clients := clients1 })
        | .ok (didGetPanPosition, ch2, clients2) =>
            match eqBlock clients2 e with
            | .error err => (.error err, { s with clients := clients2 })
            | .ok (didGetEQ, ch3, clients3) =>
                if ¬didGetVolume ∧ ¬didGetPanPosition ∧ ¬didGetEQ then
                  (.error .invalidRelativeVolume, { s with clients := clients3 })
                else
                  (.ok (ch1 || ch2 || ch3), { s with clients := clients3 })

/-- The entry loop of `BGM_Clients::SetClientsRelativeVolumes`. -/
def setClientsRelativeVolumesLoop (s : ClientsState) (didChange : Bool) :
    List VolumeEntry → Except BGMErr Bool × ClientsState
  | [] => (.ok didChange, s)
  | e :: rest =>
      match setClientsRelativeVolumesStep s e with
      | (.error err, s') => (.error err, s')
      | (.ok ch, s') => setClientsRelativeVolumesLoop s' (didChange || ch) rest

/-- `BGM_Clients::SetClientsRelativeVolumes`. -/
def setClientsRelativeVolumes (s : ClientsState) (entries : List VolumeEntry) :
    Except BGMErr Bool × ClientsState :=
  setClientsRelativeVolumesLoop s false entries

/-- The stored relative volumes of a client map, in order. -/
def volsOf (m : ClientMap) : List ℚ := m.map (fun c => c.mRelativeVolume)

/-- The stored pan positions of a client map, in order. -/
def pansOf (m : ClientMap) : List Int := m.map (fun c => c.mPanPosition)

/-- The stored EQ gain triples of a client map, in order. -/
def eqGainsOf (m : ClientMap) : List (ℚ × ℚ × ℚ) :=
  m.map (fun c => (c.mEQLowGain, c.mEQMidGain, c.mEQHighGain))

lemma map_if_proj {α : Type} (m : ClientMap) (who : BGM_Client → Bool)
    (f : BGM_Client → BGM_Client) (proj : BGM_Client → α)
    (h : ∀ c, proj (f c) = proj c) :
    (m.map (fun c => if who c then f c else c)).map proj = m.map proj := by
  induction m with
  | nil => rfl
  | cons a rest ih =>
      simp only [List.map_cons, List.cons.injEq]
      refine ⟨?_, ih⟩
      by_cases ha : who a
      · rw [if_pos ha, h]
      · rw [if_neg ha]

lemma map_if_id (m : ClientMap) (who : BGM_Client → Bool)
    (f : BGM_Client → BGM_Client) (h : ∀ c ∈ m, who c = true → f c = c) :
    m.map (fun c => if who c then f c else c) = m := by
  induction m with
  | nil => rfl
  | cons a rest ih =>
      simp only [List.map_cons, List.cons.injEq]
      constructor
      · by_cases ha : who a
        · rw [if_pos ha]; exact h a (by simp) ha
        · rw [if_neg ha]
      · exact ih (fun c hc hwc => h c (by simp [hc]) hwc)

lemma vol_setBy_pans (m : ClientMap) (who : BGM_Client → Bool) (v : ℚ) :
    pansOf (setClientsRelativeVolumeBy m who v).2 = pansOf m := by
  unfold pansOf setClientsRelativeVolumeBy
  exact map_if_proj m who _ _ (fun c => rfl)

lemma vol_setBy_eqs (m : ClientMap) (who : BGM_Client → Bool) (v : ℚ) :
    eqGainsOf (setClientsRelativeVolumeBy m who v).2 = eqGainsOf m := by
  unfold eqGainsOf setClientsRelativeVolumeBy
  exact map_if_proj m who _ _ (fun c => rfl)

lemma pan_setBy_eqs (m : ClientMap) (who : BGM_Client → Bool) (p : Int) :
    eqGainsOf (setClientsPanPositionBy m who p).2 = eqGainsOf m := by
  unfold eqGainsOf setClientsPanPositionBy
  exact map_if_proj m who _ _ (fun c => rfl)

lemma applyEQ_self (c : BGM_Client) (low mid high : ℚ)
    (h : eqDiffers c low mid high = false) : applyEQ c low mid high = c := by
  unfold eqDiffers at h
  simp only [Bool.or_eq_false_iff, Bool.and_eq_false_iff, decide_eq_false_iff_not,
    not_not] at h
  have hl : (if low = kAppEQGainNoValue then c.mEQLowGain else low) =
      c.mEQLowGain := by
    by_cases h1 : low = kAppEQGainNoValue
    · rw [if_pos h1]
    · rw [if_neg h1]
      rcases h.1.1 with h2 | h2
      · exact absurd h2 h1
      · exact h2.symm
  have hm : (if mid = kAppEQGainNoValue then c.mEQMidGain else mid) =
      c.mEQMidGain := by
    by_cases h1 : mid = kAppEQGainNoValue
    · rw [if_pos h1]
    · rw [if_neg h1]
      rcases h.1.2 with h2 | h2
      · exact absurd h2 h1
      · exact h2.symm
  have hh : (if high = kAppEQGainNoValue then c.mEQHighGain else high) =
      c.mEQHighGain := by
    by_cases h1 : high = kAppEQGainNoValue
    · rw [if_pos h1]
    · rw [if_neg h1]
      rcases h.2 with h2 | h2
      · exact absurd h2 h1
      · exact h2.symm
  unfold applyEQ
  rw [hl, hm, hh]


lemma eq_setBy_nochange (m : ClientMap) (who : BGM_Client → Bool)
    (low mid high sr : ℚ)
    (h : (setClientsEQBy m who low mid high sr).1 = false) :
    (setClientsEQBy m who low mid high sr).2 = m := by
  unfold setClientsEQBy at h ⊢
  simp only [List.any_eq_false] at h
  refine map_if_id m who _ ?_
  intro c hc hwc
  refine applyEQ_self c low mid high ?_
  have hcfact := h c hc
  simp only [Bool.and_eq_true, not_and] at hcfact
  have := hcfact hwc
  simpa using this

lemma eqApplyBoth_nochange (clients : ClientMap) (pid? : Option Int)
    (b? : Option String) (low mid high : ℚ)
    (h : (eqApplyBoth clients pid? b? low mid high).1 = false) :
    (eqApplyBoth clients pid? b? low mid high).2 = clients := by
  unfold eqApplyBoth at h ⊢
  obtain ⟨h1, h2⟩ := Bool.or_eq_false_iff.mp h
  have e1 := eq_setBy_nochange clients (matchPID pid?) low mid high 48000 h1
  rw [e1] at h2
  show (setClientsEQBy (setClientsEQBy clients (matchPID pid?)
      low mid high 48000).2 (matchBundle b?) low mid high 48000).2 = clients
  rw [e1]
  exact eq_setBy_nochange clients (matchBundle b?) low mid high 48000 h2

lemma volumeBlock_error (clients : ClientMap) (e : VolumeEntry) (err : BGMErr)
    (h : volumeBlock clients e = .error err) : err = .invalidRelativeVolume := by
  unfold volumeBlock at h
  split at h
  · simp at h
  · split at h
    · simp only [Except.error.injEq] at h
      exact h.symm
    · simp at h

lemma volumeBlock_out_of_range (clients : ClientMap) (e : VolumeEntry)
    (raw : Int) (h1 : e.relativeVolume = some raw)
    (h2 : raw < kAppRelativeVolumeMinRawValue ∨
      kAppRelativeVolumeMaxRawValue < raw) :
    volumeBlock clients e = .error .invalidRelativeVolume := by
  unfold volumeBlock
  rw [h1]
  simp [h2]

lemma volumeBlock_ok_frames (clients : ClientMap) (e : VolumeEntry)
    (dg ch : Bool) (clients' : ClientMap)
    (h : volumeBlock clients e = .ok (dg, ch, clients')) :
    pansOf clients' = pansOf clients ∧ eqGainsOf clients' = eqGainsOf clients := by
  unfold volumeBlock at h
  split at h
  · simp only [Except.ok.injEq, Prod.mk.injEq] at h
    rw [← h.2.2]
    exact ⟨rfl, rfl⟩
  · split at h
    · simp at h
    · simp only [Except.ok.injEq, Prod.mk.injEq] at h
      rw [← h.2.2]
      constructor
      · rw [vol_setBy_pans, vol_setBy_pans]
      · rw [vol_setBy_eqs, vol_setBy_eqs]

lemma panBlock_error (clients : ClientMap) (e : VolumeEntry) (err : BGMErr)
    (h : panBlock clients e = .error err) : err = .invalidPanPosition := by
  unfold panBlock at h
  split at h
  · simp at h
  · split at h
    · simp only [Except.error.injEq] at h
      exact h.symm
    · simp at h

lemma panBlock_ok_eqs (clients : ClientMap) (e : VolumeEntry)
    (dg ch : Bool) (clients' : ClientMap)
    (h : panBlock clients e = .ok (dg, ch, clients')) :
    eqGainsOf clients' = eqGainsOf clients := by
  unfold panBlock at h
  split at h
  · simp only [Except.ok.injEq, Prod.mk.injEq] at h
    rw [← h.2.2]
  · split at h
    · simp at h
    · simp only [Except.ok.injEq, Prod.mk.injEq] at h
      rw [← h.2.2, pan_setBy_eqs, pan_setBy_eqs]

lemma eqBlock_error (clients : ClientMap) (e : VolumeEntry) (err : BGMErr)
    (h : eqBlock clients e = .error err) : err = .invalidRelativeVolume := by
  unfold eqBlock at h
  split at h
  · simp at h
  · split at h
    · simp only [Except.error.injEq] at h
      exact h.symm
    · simp at h

lemma eqBlock_ok_nochange (clients : ClientMap) (e : VolumeEntry)
    (ch : Bool) (clients' : ClientMap)
    (h : eqBlock clients e = .ok (false, ch, clients')) : clients' = clients := by
  unfold eqBlock at h
  split at h
  · simp only [Except.ok.injEq, Prod.mk.injEq] at h
    exact h.2.2.symm
  · split at h
    · simp at h
    · simp only [Except.ok.injEq, Prod.mk.injEq] at h
      obtain ⟨hflag, -, hcl⟩ := h
      rw [← hcl]
      exact eqApplyBoth_nochange clients e.processID e.bundleID
        (eqDBOf e.eqLow) (eqDBOf e.eqMid) (eqDBOf e.eqHigh) hflag

/-- C7 (amended): a failing batch entry never modifies any client's EQ
gains; an entry missing both identifiers, or carrying an out-of-range
volume, modifies nothing; a pan-range failure leaves every pan position
unchanged (though a valid volume of the same entry is already applied);
atomicity therefore holds only per control in processing order
volume → pan → EQ, not for the entry as a whole. -/
theorem claim_C7_amended (s : ClientsState) (e : VolumeEntry) (err : BGMErr)
    (s' : ClientsState)
    (h : setClientsRelativeVolumesStep s e = (.error err, s')) :
    eqGainsOf s'.clients = eqGainsOf s.clients ∧
    (e.processID = none ∧ e.bundleID = none →
      s' = s ∧ err = .invalidRelativeVolume) ∧
    (∀ raw, e.relativeVolume = some raw →
      (raw < kAppRelativeVolumeMinRawValue ∨
        kAppRelativeVolumeMaxRawValue < raw) →
      s' = s) ∧
    (err = .invalidPanPosition → pansOf s'.clients = pansOf s.clients) := by
  unfold setClientsRelativeVolumesStep at h
  by_cases hids : e.processID = none ∧ e.bundleID = none
  · rw [if_pos hids] at h
    simp only [Prod.mk.injEq, Except.error.injEq] at h
    obtain ⟨herr, hs⟩ := h
    subst hs
    exact ⟨rfl, fun _ => ⟨rfl, herr.symm⟩, fun _ _ _ => rfl, fun _ => rfl⟩
  · rw [if_neg hids] at h
    split at h
    next errv hvb =>
      simp only [Prod.mk.injEq, Except.error.injEq] at h
      obtain ⟨herr, hs⟩ := h
      subst hs
      exact ⟨rfl, fun hc => absurd hc hids, fun _ _ _ => rfl, fun _ => rfl⟩
    next dgv chv clients1 hvb =>
      have hf1 := volumeBlock_ok_frames s.clients e dgv chv clients1 hvb
      have hC : ∀ raw, e.relativeVolume = some raw →
          (raw < kAppRelativeVolumeMinRawValue ∨
            kAppRelativeVolumeMaxRawValue < raw) → s' = s := by
        intro raw h1 h2
        rw [volumeBlock_out_of_range s.clients e raw h1 h2] at hvb
        simp at hvb
      split at h
      next errp hpb =>
        simp only [Prod.mk.injEq, Except.error.injEq] at h
        obtain ⟨herr, hs⟩ := h
        subst hs
        exact ⟨hf1.2, fun hc => absurd hc hids, hC, fun _ => hf1.1⟩
      next dgp chp clients2 hpb =>
        have hf2 := panBlock_ok_eqs clients1 e dgp chp clients2 hpb
        split at h
        next erre heb =>
          simp only [Prod.mk.injEq, Except.error.injEq] at h
          obtain ⟨herr, hs⟩ := h
          subst hs
          have herre : erre = .invalidRelativeVolume :=
            eqBlock_error clients2 e erre heb
          refine ⟨hf2.trans hf1.2, fun hc => absurd hc hids, hC, ?_⟩
          intro hpan
          rw [← herr, herre] at hpan
          exact absurd hpan (by simp)
        next dge che clients3 heb =>
          split at h
          next hng =>
            simp only [Prod.mk.injEq, Except.error.injEq] at h
            obtain ⟨herr, hs⟩ := h
            subst hs
            have hdge : dge = false := by
              have h3 := hng.2.2
              simpa using h3
            subst hdge
            have h3 := eqBlock_ok_nochange clients2 e che clients3 heb
            subst h3
            refine ⟨hf2.trans hf1.2, fun hc => absurd hc hids, hC, ?_⟩
            intro hpan
            rw [← herr] at hpan
            exact absurd hpan (by simp)
          next hng =>
            simp at h

/-- A concrete client with default controls (volume 1, pan 0, flat EQ). -/
def wVolClient : BGM_Client := { mClientID := 3, mProcessID := 100 }

/-- A concrete engine state holding only `wVolClient`. -/
def wVolState : ClientsState := { clients := [wVolClient] }

/-- A batch entry with a valid volume (raw 0) and an out-of-range pan. -/
def wBadEntry : VolumeEntry :=
  { processID := some 100, bundleID := none, relativeVolume := some 0,
    panPosition := some 1000, eqLow := none, eqMid := none, eqHigh := none }

/-- Counterexample to C7 as stated: the entry is invalid (pan 1000 is out
of range) and the call fails with `InvalidPanPosition`, yet the entry has
already modified the client's relative volume before failing. -/
theorem claim_C7_counterexample :
    (setClientsRelativeVolumes wVolState [wBadEntry]).1 =
      .error .invalidPanPosition ∧
    volsOf ((setClientsRelativeVolumes wVolState [wBadEntry]).2).clients ≠
      volsOf wVolState.clients := by
  constructor
  · rfl
  · have hval : volsOf ((setClientsRelativeVolumes wVolState [wBadEntry]).2).clients =
        [convertRawToScalar 0 * 4] := rfl
    have horig : volsOf wVolState.clients = [1] := rfl
    rw [hval, horig]
    simp only [ne_eq, List.cons.injEq, and_true]
    norm_num [convertRawToScalar, kAppRelativeVolumeMinRawValue,
      kAppRelativeVolumeMaxRawValue]

/-- Witness for the amended C7 at the concrete failing entry: the EQ gains
and pan positions of every client are untouched by the failing entry. -/
theorem claim_C7_witness :
    eqGainsOf ((setClientsRelativeVolumesStep wVolState wBadEntry).2).clients =
      eqGainsOf wVolState.clients ∧
    pansOf ((setClientsRelativeVolumesStep wVolState wBadEntry).2).clients =
      pansOf wVolState.clients := by
  have h1 : (setClientsRelativeVolumesStep wVolState wBadEntry).1 =
      .error .invalidPanPosition := rfl
  have h : setClientsRelativeVolumesStep wVolState wBadEntry =
      (.error .invalidPanPosition,
        (setClientsRelativeVolumesStep wVolState wBadEntry).2) := by
    rw [← h1]
  have ha := claim_C7_amended wVolState wBadEntry .invalidPanPosition
    (setClientsRelativeVolumesStep wVolState wBadEntry).2 h
  exact ⟨ha.1, ha.2.2.2 rfl⟩
